import Mathlib

/-!
Verification of the event-aggregation / channel layer (src/exonum/src/tokio/handler.rs)
and of the message codec of the exonum timestamp node, as a shallow embedding
in Lean. Streams are modelled by the script of results their successive polls
produce; byte buffers are lists of naturals.
-/

namespace Exonum

/-- One result of polling a stream once: not ready, a stream error, or a
ready value, where a ready value of none means the stream signalled
completion (end of stream). -/
inductive Poll3 (α ε : Type) where
  | notReady : Poll3 α ε
  | failed (e : ε) : Poll3 α ε
  | ready (x : Option α) : Poll3 α ε
deriving DecidableEq, Repr

variable {α ε T N A : Type}

/-- True exactly on the end-of-stream poll result. -/
def Poll3.isDone : Poll3 α ε → Bool
  | Poll3.ready none => true
  | _ => false

/-- A poll result that yields neither an item nor an error: the source is
either not ready or has signalled completion. -/
def Poll3.quiet (r : Poll3 α ε) : Prop :=
  r = Poll3.notReady ∨ r = Poll3.ready none

instance [DecidableEq α] [DecidableEq ε] (r : Poll3 α ε) : Decidable r.quiet := by
  unfold Poll3.quiet
  infer_instance

/-- A stream wrapped by the futures Fuse combinator, as used for the three
sources of EventsAggregator. The underlying stream is modelled by the script
of results its successive polls produce; the done flag is the Fuse state: it
is set when the underlying stream yields completion, and while it is set the
underlying stream is never polled again. -/
structure Fuse (α ε : Type) where
  stream : List (Poll3 α ε)
  done : Bool
deriving DecidableEq, Repr

/-- Wrapping a stream in Fuse, as done by the fuse() calls in
EventsAggregator::new: the done flag starts out false. -/
def Fuse.fuse (script : List (Poll3 α ε)) : Fuse α ε := ⟨script, false⟩

/-- Polling a fused stream: when the done flag is set, return end-of-stream
without touching the underlying stream; otherwise poll the underlying stream
(consume the next scripted result; an exhausted script reads as not ready)
and set the done flag if it signalled completion. -/
def Fuse.poll (f : Fuse α ε) : Poll3 α ε × Fuse α ε :=
  if f.done then (Poll3.ready none, f)
  else
    match f.stream with
    | [] => (Poll3.notReady, f)
    | Poll3.ready none :: rest => (Poll3.ready none, ⟨rest, true⟩)
    | r :: rest => (r, ⟨rest, false⟩)

/-- The tagged union of the three event kinds produced by the aggregator,
mirroring enum Event of handler.rs. -/
inductive Event (T N A : Type) where
  | timeout (t : T)
  | network (n : N)
  | api (a : A)
deriving DecidableEq, Repr

/-- The EventsAggregator state: the three fused sources, mirroring struct
EventsAggregator of handler.rs. -/
structure EventsAggregator (T N A ε : Type) where
  timeout : Fuse T ε
  network : Fuse N ε
  api : Fuse A ε
deriving DecidableEq, Repr

/-- EventsAggregator::new: wrap each of the three sources in Fuse. -/
def EventsAggregator.new (timeout : List (Poll3 T ε)) (network : List (Poll3 N ε))
    (api : List (Poll3 A ε)) : EventsAggregator T N A ε :=
  { network := Fuse.fuse network
    timeout := Fuse.fuse timeout
    api := Fuse.fuse api }

/-- EventsAggregator::poll, translated match arm by match arm: poll the
timeout source and return its item or error at once if it has one; otherwise
remember in a flag whether it ended, and fall through to the network source,
then to the api source in the same way; when no source produced an item or an
error, return end-of-stream if the flag was set by any source and not-ready
otherwise. -/
def EventsAggregator.poll (s : EventsAggregator T N A ε) :
    Poll3 (Event T N A) ε × EventsAggregator T N A ε :=
  let pt := s.timeout.poll
  let s1 : EventsAggregator T N A ε := { s with timeout := pt.2 }
  match pt.1 with
  | Poll3.failed e => (Poll3.failed e, s1)
  | Poll3.ready (some item) => (Poll3.ready (some (Event.timeout item)), s1)
  | rt =>
    let pn := s1.network.poll
    let s2 : EventsAggregator T N A ε := { s1 with network := pn.2 }
    match pn.1 with
    | Poll3.failed e => (Poll3.failed e, s2)
    | Poll3.ready (some item) => (Poll3.ready (some (Event.network item)), s2)
    | rn =>
      let pa := s2.api.poll
      let s3 : EventsAggregator T N A ε := { s2 with api := pa.2 }
      match pa.1 with
      | Poll3.failed e => (Poll3.failed e, s3)
      | Poll3.ready (some item) => (Poll3.ready (some (Event.api item)), s3)
      | ra =>
        (if rt.isDone || rn.isDone || ra.isDone then Poll3.ready none
         else Poll3.notReady, s3)

/-- The opaque timeout payload type NodeTimeout supplied by the node layer;
the channel layer treats it as opaque, so a natural number stands in. -/
abbrev NodeTimeout := Nat

/-- The opaque local-API message type ExternalMessage; treated as opaque by
the channel layer. -/
abbrev ExternalMessage := Nat

/-- A peer socket address; treated as opaque by the channel layer. -/
abbrev SockAddr := Nat

/-- A system time instant; treated as opaque by the channel layer. -/
abbrev SysTime := Nat

/-- A raw encoded message travelling through the network queue: a byte
buffer, each entry one byte. -/
abbrev RawMessage := List Nat

/-- The struct TimeoutRequest(SystemTime, NodeTimeout) of handler.rs: a fire
time paired with the timeout payload. -/
structure TimeoutRequest where
  time : SysTime
  timeout : NodeTimeout
deriving DecidableEq, Repr

/-- The network-request vocabulary used by NodeSender::send_to: a request to
send a message to a peer address. -/
inductive NetworkRequest where
  | sendMessage (address : SockAddr) (message : RawMessage)
deriving DecidableEq, Repr

/-- One bounded mpsc channel, modelled as the shared queue behind its sender
and receiver halves: the fixed capacity chosen at construction, the queued
items in FIFO order, and whether the receiving half is still alive. A send
onto a full queue suspends until space frees, so capacity never drops items
and is not consulted by the enqueue model. -/
structure Chan (α : Type) where
  capacity : Nat
  queue : List α
  receiverAlive : Bool
deriving DecidableEq, Repr

/-- The mpsc channel constructor: empty queue, live receiver, the given
capacity. -/
def mpscChannel (α : Type) (buffer : Nat) : Chan α :=
  { capacity := buffer, queue := [], receiverAlive := true }

/-- Enqueue onto a channel: fails returning the rejected item exactly when
the receiving half has been dropped, otherwise appends in FIFO order. -/
def chanSend (c : Chan α) (x : α) : Except α (Chan α) :=
  if c.receiverAlive then Except.ok { c with queue := c.queue ++ [x] }
  else Except.error x

/-- Dequeue from a channel: the oldest queued item, if any. -/
def chanRecv (c : Chan α) : Option (α × Chan α) :=
  match c.queue with
  | [] => none
  | x :: rest => some (x, { c with queue := rest })

/-- The three shared queues behind a NodeChannel: NodeSender holds the three
sender halves and NodeReceiver the three receiver halves of exactly these
channels, so both halves of each pair are modelled by one shared Chan. -/
structure NodeChannel where
  timeout : Chan TimeoutRequest
  network : Chan NetworkRequest
  external : Chan ExternalMessage
deriving DecidableEq, Repr

/-- NodeChannel::new(buffer): construct the three mpsc channels, each with
the identical capacity given by the single buffer argument. -/
def NodeChannel.new (buffer : Nat) : NodeChannel :=
  { timeout := mpscChannel TimeoutRequest buffer
    network := mpscChannel NetworkRequest buffer
    external := mpscChannel ExternalMessage buffer }

/-- A record of errors logged and discarded by the spawned send futures of
NodeSender (the map_err(log_error) of send_to and add_timeout). -/
inductive LogEntry where
  | droppedNetwork (r : NetworkRequest)
  | droppedTimeout (r : TimeoutRequest)
deriving DecidableEq, Repr

/-- The state a NodeSender operation acts on: the shared channels plus the
log written by log_error. -/
structure NodeCtx where
  chans : NodeChannel
  log : List LogEntry
deriving DecidableEq, Repr

/-- NodeSender::send_to: build the SendMessage network request and spawn its
enqueue onto the network queue; a successful enqueue appends the request, a
failed one (receiver dropped) is logged and discarded. In either case the
caller gets the resulting state back and no error escapes. -/
def NodeSender.send_to (ctx : NodeCtx) (address : SockAddr) (message : RawMessage) :
    NodeCtx :=
  let request := NetworkRequest.sendMessage address message
  match chanSend ctx.chans.network request with
  | Except.ok c => { ctx with chans := { ctx.chans with network := c } }
  | Except.error r => { ctx with log := ctx.log ++ [LogEntry.droppedNetwork r] }

/-- NodeSender::add_timeout: build the TimeoutRequest(time, timeout) pair and
spawn its enqueue onto the timeout queue, with the same logged, discarded,
never-propagated failure handling as send_to. -/
def NodeSender.add_timeout (ctx : NodeCtx) (timeout : NodeTimeout) (time : SysTime) :
    NodeCtx :=
  let request : TimeoutRequest := { time := time, timeout := timeout }
  match chanSend ctx.chans.timeout request with
  | Except.ok c => { ctx with chans := { ctx.chans with timeout := c } }
  | Except.error r => { ctx with log := ctx.log ++ [LogEntry.droppedTimeout r] }

/-- Little-endian encoding of a natural into w bytes (the value taken modulo
256 to the w). The protocol uses one fixed byte order for every scalar. -/
def toLE : Nat → Nat → List Nat
  | 0, _ => []
  | w + 1, v => v % 256 :: toLE w (v / 256)

/-- Little-endian decoding of a byte list back into a natural. -/
def fromLE : List Nat → Nat
  | [] => 0
  | b :: rest => b + 256 * fromLE rest

/-- The bytes of buf in positions start up to stop (exclusive). -/
def slice (buf : List Nat) (start stop : Nat) : List Nat :=
  (buf.drop start).take (stop - start)

/-- Overwrite the bytes of buf starting at position start with bs, leaving
the rest unchanged. -/
def setRange (buf : List Nat) (start : Nat) (bs : List Nat) : List Nat :=
  buf.take start ++ bs ++ buf.drop (start + bs.length)

/-- Decode the two-byte little-endian scalar at a position. -/
def readU16 (buf : List Nat) (off : Nat) : Nat := fromLE (slice buf off (off + 2))

/-- Decode the four-byte little-endian scalar at a position; also how each
half of an eight-byte segment pointer is decoded. -/
def readU32 (buf : List Nat) (off : Nat) : Nat := fromLE (slice buf off (off + 4))

/-- Decode the eight-byte little-endian scalar at a position. -/
def readU64 (buf : List Nat) (off : Nat) : Nat := fromLE (slice buf off (off + 8))

/-- Modelled from the spec: text fields are UTF-8 byte sequences, so the
model carries the standard UTF-8 encoding of a list of code points. -/
def utf8EncodeChar (c : Nat) : List Nat :=
  if c < 128 then [c]
  else if c < 2048 then [192 + c / 64, 128 + c % 64]
  else if c < 65536 then [224 + c / 4096, 128 + c / 64 % 64, 128 + c % 64]
  else [240 + c / 262144, 128 + c / 4096 % 64, 128 + c / 64 % 64, 128 + c % 64]

/-- UTF-8 encoding of a whole code-point sequence. -/
def utf8Encode (s : List Nat) : List Nat := (s.map utf8EncodeChar).flatten

/-- One UTF-8 decoding step: given the lead byte and the bytes after it,
the decoded code point and the number of continuation bytes consumed, or
none when the lead byte or a continuation byte is malformed or missing. -/
def utf8Step (b : Nat) (rest : List Nat) : Option (Nat × Nat) :=
  if b < 128 then some (b, 0)
  else if b < 192 then none
  else if b < 224 then
    match rest with
    | c1 :: _ =>
      if 128 ≤ c1 ∧ c1 < 192 then some ((b - 192) * 64 + (c1 - 128), 1) else none
    | [] => none
  else if b < 240 then
    match rest with
    | c1 :: c2 :: _ =>
      if (128 ≤ c1 ∧ c1 < 192) ∧ (128 ≤ c2 ∧ c2 < 192) then
        some ((b - 224) * 4096 + (c1 - 128) * 64 + (c2 - 128), 2)
      else none
    | _ => none
  else if b < 248 then
    match rest with
    | c1 :: c2 :: c3 :: _ =>
      if (128 ≤ c1 ∧ c1 < 192) ∧ (128 ≤ c2 ∧ c2 < 192) ∧ (128 ≤ c3 ∧ c3 < 192) then
        some ((b - 240) * 262144 + (c1 - 128) * 4096 + (c2 - 128) * 64 + (c3 - 128), 3)
      else none
    | _ => none
  else none

/-- UTF-8 decoding; none on a structurally invalid byte sequence (bad lead
byte, missing or malformed continuation bytes). -/
def utf8Decode : List Nat → Option (List Nat)
  | [] => some []
  | b :: rest =>
    match utf8Step b rest with
    | none => none
    | some (c, k) => (utf8Decode (rest.drop k)).map (c :: ·)
termination_by l => l.length
decreasing_by simp; omega

/-- Modelled from the spec: the fixed message header holds the protocol and
network identifiers, the message-class and message-type ids, and the total
payload length as a four-byte scalar at offset four; eight bytes in all. -/
def headerSize : Nat := 8

/-- Modelled from the spec: the fixed-size signature trailer. -/
def signatureSize : Nat := 64

/-- Modelled from the spec: the structural check a nested raw message must
pass: long enough for header plus signature, and the recorded total length
equal to the actual buffer length. -/
def rawStructOk (m : List Nat) : Bool :=
  decide (headerSize + signatureSize ≤ m.length) && decide (readU32 m 4 = m.length)

/-- The three element kinds a sequence-of-segments can hold: plain byte
sequences, raw messages, and typed messages (checked as raw messages). -/
inductive SegKind where
  | plain
  | rawMsg
  | typedMsg
deriving DecidableEq, Repr

/-- The per-element structural check of a sequence: byte sequences are
unconstrained; raw and typed message elements must pass the raw-message
structural check. -/
def elemOk (k : SegKind) (e : List Nat) : Bool :=
  match k with
  | SegKind.plain => true
  | SegKind.rawMsg => rawStructOk e
  | SegKind.typedMsg => rawStructOk e

/-- Modelled from the spec: the closed set of field kinds of the Field
protocol - fixed-width scalars, a fixed 32-byte digest, and the segment
kinds (byte sequence, UTF-8 text, packed scalar sequences, packed digest
sequence, nested raw message, and sequence-of-segments). -/
inductive FieldKind where
  | u16
  | u32
  | u64
  | digest
  | bytes
  | text
  | u16seq
  | u32seq
  | hashseq
  | rawMsg
  | seq (k : SegKind)
deriving DecidableEq, Repr

/-- A value of some field kind, the v of the Field contract. -/
inductive FieldVal where
  | u16 (v : Nat)
  | u32 (v : Nat)
  | u64 (v : Nat)
  | digest (h : List Nat)
  | bytes (b : List Nat)
  | text (s : List Nat)
  | u16seq (vs : List Nat)
  | u32seq (vs : List Nat)
  | hashseq (hs : List (List Nat))
  | rawMsg (m : List Nat)
  | seq (k : SegKind) (elems : List (List Nat))
deriving DecidableEq, Repr

/-- The field kind a value belongs to. -/
def FieldVal.kind : FieldVal → FieldKind
  | FieldVal.u16 _ => FieldKind.u16
  | FieldVal.u32 _ => FieldKind.u32
  | FieldVal.u64 _ => FieldKind.u64
  | FieldVal.digest _ => FieldKind.digest
  | FieldVal.bytes _ => FieldKind.bytes
  | FieldVal.text _ => FieldKind.text
  | FieldVal.u16seq _ => FieldKind.u16seq
  | FieldVal.u32seq _ => FieldKind.u32seq
  | FieldVal.hashseq _ => FieldKind.hashseq
  | FieldVal.rawMsg _ => FieldKind.rawMsg
  | FieldVal.seq k _ => FieldKind.seq k

/-- Fixed-region footprint of each kind: the scalar width, the digest
width, or the eight bytes of a segment pointer. -/
def FieldKind.fixedSize : FieldKind → Nat
  | FieldKind.u16 => 2
  | FieldKind.u32 => 4
  | FieldKind.u64 => 8
  | FieldKind.digest => 32
  | _ => 8

/-- Whether a kind is stored through a segment pointer. -/
def FieldKind.isSegment : FieldKind → Bool
  | FieldKind.u16 => false
  | FieldKind.u32 => false
  | FieldKind.u64 => false
  | FieldKind.digest => false
  | _ => true

/-- The payload bytes a simple segment value appends to the tail (the
sequence-of-segments kind lays its tail out separately). -/
def FieldVal.payload : FieldVal → List Nat
  | FieldVal.bytes b => b
  | FieldVal.text s => utf8Encode s
  | FieldVal.u16seq vs => (vs.map (toLE 2)).flatten
  | FieldVal.u32seq vs => (vs.map (toLE 4)).flatten
  | FieldVal.hashseq hs => hs.flatten
  | FieldVal.rawMsg m => m
  | _ => []

/-- The inner-pointer table of a sequence-of-segments: one eight-byte
(offset, length) pointer per element, with the payloads laid out one after
another starting at pos. -/
def innerTable : Nat → List (List Nat) → List Nat
  | _, [] => []
  | pos, e :: rest => toLE 4 pos ++ toLE 4 e.length ++ innerTable (pos + e.length) rest

/-- Write one segment: append the payload to the tail and store the
(old tail position, payload length) pointer at the field position. -/
def writeSeg (buf : List Nat) (start : Nat) (payload : List Nat) : List Nat :=
  setRange buf start (toLE 4 buf.length ++ toLE 4 payload.length) ++ payload

/-- Modelled from the spec: Field write. Fixed-width kinds encode in place;
segment kinds append their payload to the tail and store a pointer; a
sequence-of-segments appends its inner-pointer table followed immediately by
the concatenated inner payloads. -/
def Field.write (v : FieldVal) (buf : List Nat) (start _stop : Nat) : List Nat :=
  match v with
  | FieldVal.u16 x => setRange buf start (toLE 2 x)
  | FieldVal.u32 x => setRange buf start (toLE 4 x)
  | FieldVal.u64 x => setRange buf start (toLE 8 x)
  | FieldVal.digest h => setRange buf start h
  | FieldVal.bytes b => writeSeg buf start b
  | FieldVal.text s => writeSeg buf start (utf8Encode s)
  | FieldVal.u16seq vs => writeSeg buf start ((vs.map (toLE 2)).flatten)
  | FieldVal.u32seq vs => writeSeg buf start ((vs.map (toLE 4)).flatten)
  | FieldVal.hashseq hs => writeSeg buf start hs.flatten
  | FieldVal.rawMsg m => writeSeg buf start m
  | FieldVal.seq _ elems =>
    setRange buf start (toLE 4 buf.length ++ toLE 4 (8 * elems.length)) ++
      innerTable (buf.length + 8 * elems.length) elems ++ elems.flatten

/-- The decoded offset half of the segment pointer at a field position. -/
def segOffset (buf : List Nat) (start : Nat) : Nat := readU32 buf start

/-- The decoded length half of the segment pointer at a field position. -/
def segLength (buf : List Nat) (start : Nat) : Nat := readU32 buf (start + 4)

/-- The payload bytes a segment pointer at a field position refers to. -/
def segPayloadAt (buf : List Nat) (start : Nat) : List Nat :=
  slice buf (segOffset buf start) (segOffset buf start + segLength buf start)

/-- Split a payload into n chunks of w bytes each. -/
def readChunks (w : Nat) : Nat → List Nat → List (List Nat)
  | 0, _ => []
  | n + 1, p => p.take w :: readChunks w n (p.drop w)

/-- Read the n elements of an inner-pointer table starting at toff: each
eight-byte entry names the absolute range of one element. -/
def readTable (buf : List Nat) : Nat → Nat → List (List Nat)
  | _, 0 => []
  | toff, n + 1 =>
    slice buf (readU32 buf toff) (readU32 buf toff + readU32 buf (toff + 4)) ::
      readTable buf (toff + 8) n

/-- Validate the n entries of an inner-pointer table: every element range
within the buffer and past the fixed region, and every element passing its
own structural check. -/
def checkTable (buf : List Nat) (fe : Nat) (k : SegKind) : Nat → Nat → Bool
  | _, 0 => true
  | toff, n + 1 =>
    decide (readU32 buf toff + readU32 buf (toff + 4) ≤ buf.length) &&
    decide (fe ≤ readU32 buf toff) &&
    elemOk k (slice buf (readU32 buf toff) (readU32 buf toff + readU32 buf (toff + 4))) &&
    checkTable buf fe k (toff + 8) n

/-- The single structural-validation error kind of Field check. -/
inductive CheckError where
  | structural
deriving DecidableEq, Repr

/-- The kind-specific extra condition of a segment check beyond the shared
pointer bounds: valid UTF-8 for text, payload length divisible by the
element width for packed sequences, the raw-message structural check for a
nested message, and the inner-pointer table walk for a sequence. -/
def segExtraOk (k : FieldKind) (fe : Nat) (buf : List Nat) (o l : Nat) : Bool :=
  match k with
  | FieldKind.text => (utf8Decode (slice buf o (o + l))).isSome
  | FieldKind.u16seq => decide (l % 2 = 0)
  | FieldKind.u32seq => decide (l % 4 = 0)
  | FieldKind.hashseq => decide (l % 32 = 0)
  | FieldKind.rawMsg => rawStructOk (slice buf o (o + l))
  | FieldKind.seq sk => decide (l % 8 = 0) && checkTable buf fe sk o (l / 8)
  | _ => true

/-- Modelled from the spec: Field check. Validates that the field range has
exactly the kind's fixed size and lies inside the buffer; for segment kinds
additionally decodes the pointer, requires offset plus length within the
buffer and offset at or past the end of the fixed region fe, and applies the
kind-specific nested validation. Total by construction: every malformed
input yields the structural error, never a panic. -/
def Field.check (k : FieldKind) (fe : Nat) (buf : List Nat) (start stop : Nat) :
    Except CheckError Unit :=
  if stop = start + k.fixedSize ∧ stop ≤ buf.length then
    if k.isSegment then
      if segOffset buf start + segLength buf start ≤ buf.length ∧
          fe ≤ segOffset buf start ∧
          segExtraOk k fe buf (segOffset buf start) (segLength buf start) = true then
        Except.ok ()
      else Except.error CheckError.structural
    else Except.ok ()
  else Except.error CheckError.structural

/-- Modelled from the spec: Field read, assuming check already succeeded:
decode the scalar in place, or follow the segment pointer and decode the
payload. -/
def Field.read (k : FieldKind) (buf : List Nat) (start _stop : Nat) : FieldVal :=
  match k with
  | FieldKind.u16 => FieldVal.u16 (readU16 buf start)
  | FieldKind.u32 => FieldVal.u32 (readU32 buf start)
  | FieldKind.u64 => FieldVal.u64 (readU64 buf start)
  | FieldKind.digest => FieldVal.digest (slice buf start (start + 32))
  | FieldKind.bytes => FieldVal.bytes (segPayloadAt buf start)
  | FieldKind.text => FieldVal.text ((utf8Decode (segPayloadAt buf start)).getD [])
  | FieldKind.u16seq =>
    FieldVal.u16seq ((readChunks 2 (segLength buf start / 2) (segPayloadAt buf start)).map fromLE)
  | FieldKind.u32seq =>
    FieldVal.u32seq ((readChunks 4 (segLength buf start / 4) (segPayloadAt buf start)).map fromLE)
  | FieldKind.hashseq =>
    FieldVal.hashseq (readChunks 32 (segLength buf start / 32) (segPayloadAt buf start))
  | FieldKind.rawMsg => FieldVal.rawMsg (segPayloadAt buf start)
  | FieldKind.seq sk =>
    FieldVal.seq sk (readTable buf (segOffset buf start) (segLength buf start / 8))

/-- Well-formedness of a field value: scalars within their width, digests of
32 bytes, code points within the Unicode range, and sequence elements
passing their per-element structural check. -/
def FieldVal.wf : FieldVal → Prop
  | FieldVal.u16 v => v < 256 ^ 2
  | FieldVal.u32 v => v < 256 ^ 4
  | FieldVal.u64 v => v < 256 ^ 8
  | FieldVal.digest h => h.length = 32
  | FieldVal.bytes _ => True
  | FieldVal.text s => ∀ c ∈ s, c < 1114112
  | FieldVal.u16seq vs => ∀ v ∈ vs, v < 256 ^ 2
  | FieldVal.u32seq vs => ∀ v ∈ vs, v < 256 ^ 4
  | FieldVal.hashseq hs => ∀ h ∈ hs, h.length = 32
  | FieldVal.rawMsg m => rawStructOk m = true
  | FieldVal.seq k elems => ∀ e ∈ elems, elemOk k e = true

/-- How many bytes writing a value appends to the buffer's tail. -/
def FieldVal.tailSize : FieldVal → Nat
  | FieldVal.u16 _ => 0
  | FieldVal.u32 _ => 0
  | FieldVal.u64 _ => 0
  | FieldVal.digest _ => 0
  | FieldVal.seq _ elems => 8 * elems.length + (elems.map List.length).sum
  | v => v.payload.length

/-- Modelled from the spec: the sign collaborator of the crypto interface,
modelled perfectly: a fixed-size trailer whose first entry determines the
key and the signed bytes injectively. -/
def signBytes (bs : List Nat) (sk : Nat) : List Nat :=
  Nat.pair sk (Encodable.encode bs) :: List.replicate (signatureSize - 1) 0

/-- Modelled from the spec: key generation; a keypair is a matched
(public, secret) pair from one seed. -/
def gen_keypair (seed : Nat) : Nat × Nat := (seed, seed)

/-- Modelled from the spec: the signature-verification collaborator;
recompute the signature the matching secret key would have produced and
compare. -/
def verify_signature (bs sig : List Nat) (pk : Nat) : Bool :=
  decide (sig = signBytes bs pk)

/-- Modelled from the spec: Message verify. False, never a panic, when the
buffer is shorter than a minimal valid header plus trailer; otherwise
recompute the signature over the bytes before the trailer and compare with
the trailer. -/
def Message.verify (raw : List Nat) (pk : Nat) : Bool :=
  if raw.length < headerSize + signatureSize then false
  else
    verify_signature (raw.take (raw.length - signatureSize))
      (raw.drop (raw.length - signatureSize)) pk

/-- Modelled from the spec: record the final total length (body plus
signature trailer) in the header's length field, then sign the whole body
and append the signature. -/
def signMessage (body : List Nat) (sk : Nat) : List Nat :=
  let b := setRange body 4 (toLE 4 (body.length + signatureSize))
  b ++ signBytes b sk

/-- Modelled from the spec: assemble a message of one catalogue type: fixed
header holding the class and type ids and a length placeholder, a
zero-initialised fixed body region filled in by the given field writes, then
length patch, signature and trailer. -/
def mkMessage (cls typ fixedBody : Nat) (writeBody : List Nat → List Nat) (sk : Nat) :
    List Nat :=
  signMessage (writeBody ([0, 0, cls, typ] ++ toLE 4 0 ++ List.replicate fixedBody 0)) sk

/-- Modelled from the spec: Status::new(validator, height, last_hash, key) -
validator id, height and last block hash written in declared order. -/
def Status.new (validator height : Nat) (last_hash : List Nat) (sk : Nat) : List Nat :=
  mkMessage 0 4 44 (fun b =>
    Field.write (FieldVal.digest last_hash)
      (Field.write (FieldVal.u64 height)
        (Field.write (FieldVal.u32 validator) b 8 12) 12 20) 20 52) sk

/-- Status validator accessor. -/
def Status.validator (m : List Nat) : Nat := readU32 m 8

/-- Status height accessor. -/
def Status.height (m : List Nat) : Nat := readU64 m 12

/-- Status last block hash accessor. -/
def Status.last_hash (m : List Nat) : List Nat := slice m 20 52

/-- Modelled from the spec: Propose::new(validator, height, round, time,
prev_hash, transactions, key) with the timestamp as a (seconds, nanoseconds)
pair and the transaction hashes as one packed digest sequence. -/
def Propose.new (validator height round sec nsec : Nat) (prev_hash : List Nat)
    (txs : List (List Nat)) (sk : Nat) : List Nat :=
  mkMessage 0 1 68 (fun b =>
    Field.write (FieldVal.hashseq txs)
      (Field.write (FieldVal.digest prev_hash)
        (Field.write (FieldVal.u32 nsec)
          (Field.write (FieldVal.u64 sec)
            (Field.write (FieldVal.u32 round)
              (Field.write (FieldVal.u64 height)
                (Field.write (FieldVal.u32 validator) b 8 12) 12 20) 20 24) 24 32)
          32 36) 36 68) 68 76) sk

/-- Propose validator accessor. -/
def Propose.validator (m : List Nat) : Nat := readU32 m 8

/-- Propose height accessor. -/
def Propose.height (m : List Nat) : Nat := readU64 m 12

/-- Propose round accessor. -/
def Propose.round (m : List Nat) : Nat := readU32 m 20

/-- Propose timestamp accessor: the (seconds, nanoseconds) pair. -/
def Propose.time (m : List Nat) : Nat × Nat := (readU64 m 24, readU32 m 32)

/-- Propose previous-block hash accessor. -/
def Propose.prev_hash (m : List Nat) : List Nat := slice m 36 68

/-- Propose transactions accessor: the packed 32-byte transaction hashes. -/
def Propose.transactions (m : List Nat) : List (List Nat) :=
  readChunks 32 (segLength m 68 / 32) (segPayloadAt m 68)

/-- Modelled from the spec: Precommit::new(validator, height, round,
propose_hash, block_hash, key). -/
def Precommit.new (validator height round : Nat) (propose_hash block_hash : List Nat)
    (sk : Nat) : List Nat :=
  mkMessage 0 3 80 (fun b =>
    Field.write (FieldVal.digest block_hash)
      (Field.write (FieldVal.digest propose_hash)
        (Field.write (FieldVal.u32 round)
          (Field.write (FieldVal.u64 height)
            (Field.write (FieldVal.u32 validator) b 8 12) 12 20) 20 24) 24 56) 56 88) sk

/-- The block-header content aggregated by a Block message: height,
timestamp, previous-block hash, transaction-root hash and state hash. -/
structure BlockContent where
  height : Nat
  sec : Nat
  nsec : Nat
  prev_hash : List Nat
  tx_hash : List Nat
  state_hash : List Nat
deriving DecidableEq, Repr

/-- Fixed 116-byte encoding of the block-header content. -/
def BlockContent.encode (c : BlockContent) : List Nat :=
  toLE 8 c.height ++ toLE 8 c.sec ++ toLE 4 c.nsec ++ c.prev_hash ++ c.tx_hash ++
    c.state_hash

/-- Decoding of the block-header content from its 116-byte region. -/
def BlockContent.decode (bs : List Nat) : BlockContent :=
  { height := fromLE (slice bs 0 8)
    sec := fromLE (slice bs 8 16)
    nsec := fromLE (slice bs 16 20)
    prev_hash := slice bs 20 52
    tx_hash := slice bs 52 84
    state_hash := slice bs 84 116 }

/-- Well-formedness of a block-header content: scalars within their widths
and the three hashes 32 bytes each. -/
def BlockContent.wf (c : BlockContent) : Prop :=
  c.height < 256 ^ 8 ∧ c.sec < 256 ^ 8 ∧ c.nsec < 256 ^ 4 ∧
    c.prev_hash.length = 32 ∧ c.tx_hash.length = 32 ∧ c.state_hash.length = 32

/-- Modelled from the spec: Block::new(content, precommits, transactions,
key): the inline content region followed by a sequence of typed Precommit
messages and a sequence of raw transaction messages. -/
def Block.new (content : BlockContent) (precommits transactions : List (List Nat))
    (sk : Nat) : List Nat :=
  mkMessage 0 6 132 (fun b =>
    Field.write (FieldVal.seq SegKind.rawMsg transactions)
      (Field.write (FieldVal.seq SegKind.typedMsg precommits)
        (setRange b 8 content.encode) 124 132) 132 140) sk

/-- Block content accessor. -/
def Block.block (m : List Nat) : BlockContent := BlockContent.decode (slice m 8 124)

/-- Block precommit list accessor. -/
def Block.precommits (m : List Nat) : List (List Nat) :=
  readTable m (segOffset m 124) (segLength m 124 / 8)

/-- Block transaction list accessor. -/
def Block.transactions (m : List Nat) : List (List Nat) :=
  readTable m (segOffset m 132) (segLength m 132 / 8)

/-- An aggregator state in which the timeout source completes on its next
poll while the network and api sources are merely not ready and never
complete anywhere in their scripts. -/
def onlyTimeoutEnds : EventsAggregator Nat Nat Nat Nat :=
  { timeout := ⟨[Poll3.ready none], false⟩
    network := ⟨[Poll3.notReady], false⟩
    api := ⟨[Poll3.notReady], false⟩ }

theorem length_toLE (w v : Nat) : (toLE w v).length = w := by
  induction w generalizing v with
  | zero => rfl
  | succ w ih => simp [toLE, ih]

theorem fromLE_toLE (w v : Nat) : fromLE (toLE w v) = v % 256 ^ w := by
  induction w generalizing v with
  | zero => simp [toLE, fromLE, Nat.mod_one]
  | succ w ih =>
    have h256 : 256 ^ (w + 1) = 256 * 256 ^ w := by ring
    simp only [toLE, fromLE, ih, h256, Nat.mod_mul]

theorem fromLE_toLE_of_lt {w v : Nat} (h : v < 256 ^ w) : fromLE (toLE w v) = v := by
  rw [fromLE_toLE, Nat.mod_eq_of_lt h]

theorem length_slice_of_le {buf : List Nat} {a b : Nat} (h : b ≤ buf.length) (hab : a ≤ b) :
    (slice buf a b).length = b - a := by
  simp [slice]
  omega

theorem length_setRange {buf bs : List Nat} {start : Nat}
    (h : start + bs.length ≤ buf.length) :
    (setRange buf start bs).length = buf.length := by
  simp [setRange]
  omega

theorem slice_append_of_le {l₁ : List Nat} (l₂ : List Nat) {a b : Nat}
    (h : b ≤ l₁.length) : slice (l₁ ++ l₂) a b = slice l₁ a b := by
  unfold slice
  by_cases ha : a ≤ l₁.length
  · rw [List.drop_append_of_le_length ha]
    have hb : b - a ≤ (l₁.drop a).length := by simp; omega
    rw [List.take_append_of_le_length hb]
  · have : b - a = 0 := by omega
    simp [this]

theorem slice_concat (P X R : List Nat) {a b : Nat} (ha : a = P.length)
    (hb : b = P.length + X.length) : slice (P ++ X ++ R) a b = X := by
  subst ha hb
  unfold slice
  rw [List.append_assoc, List.drop_left]
  simp [List.take_append_of_le_length]

theorem setRange_eq_append {buf bs : List Nat} {start : Nat} (h : start ≤ buf.length) :
    setRange buf start bs = buf.take start ++ (bs ++ buf.drop (start + bs.length)) := by
  simp [setRange]

theorem slice_setRange_self {buf bs : List Nat} {start stop : Nat}
    (hfit : start + bs.length ≤ buf.length) (hstop : stop = start + bs.length) :
    slice (setRange buf start bs) start stop = bs := by
  subst hstop
  have h1 : (buf.take start).length = start := by simp; omega
  rw [setRange]
  exact slice_concat _ _ _ h1.symm (by rw [h1])

theorem slice_setRange_left {buf bs : List Nat} {start a b : Nat}
    (hb : b ≤ start) (hstart : start ≤ buf.length) :
    slice (setRange buf start bs) a b = slice buf a b := by
  rw [setRange_eq_append hstart, slice_append_of_le _ (by simp; omega)]
  unfold slice
  rw [List.drop_take]
  rw [List.take_take]
  congr 1
  omega

theorem slice_setRange_right {buf bs : List Nat} {start a b : Nat}
    (ha : start + bs.length ≤ a) (hfit : start + bs.length ≤ buf.length) :
    slice (setRange buf start bs) a b = slice buf a b := by
  unfold slice setRange
  have hlen : (buf.take start ++ bs).length = start + bs.length := by simp; omega
  have hsplit : buf.take start ++ bs ++ buf.drop (start + bs.length) =
      (buf.take start ++ bs) ++ buf.drop (start + bs.length) := by
    simp [List.append_assoc]
  rw [hsplit]
  have ha' : a = (buf.take start ++ bs).length + (a - (start + bs.length)) := by
    rw [hlen]; omega
  rw [ha', List.drop_append, List.drop_drop]
  congr 2
  omega

theorem slice_front {buf : List Nat} {a b c : Nat} (hbc : b ≤ c) :
    slice buf a b = (slice buf a c).take (b - a) := by
  unfold slice
  rw [List.take_take]
  congr 1
  omega

theorem slice_suffix {buf : List Nat} {a b c : Nat} (hab : a ≤ b) :
    slice buf b c = (slice buf a c).drop (b - a) := by
  unfold slice
  rw [List.drop_take, List.drop_drop]
  have h1 : a + (b - a) = b := by omega
  have h2 : c - a - (b - a) = c - b := by omega
  rw [h1, h2]

theorem slice_concat' (P X R : List Nat) {a b : Nat} (ha : a = P.length)
    (hb : b = a + X.length) : slice (P ++ (X ++ R)) a b = X := by
  rw [← List.append_assoc]
  exact slice_concat P X R ha (by omega)

theorem slice_concat₂ (P X : List Nat) {a b : Nat} (ha : a = P.length)
    (hb : b = a + X.length) : slice (P ++ X) a b = X := by
  subst ha
  subst hb
  have h := slice_concat P X [] rfl rfl
  simpa using h

theorem fromLE_slice_concat {w : Nat} (P R : List Nat) {v off : Nat}
    (hoff : off = P.length) (hv : v < 256 ^ w) :
    fromLE (slice (P ++ (toLE w v ++ R)) off (off + w)) = v := by
  rw [slice_concat' P (toLE w v) R hoff (by rw [length_toLE])]
  exact fromLE_toLE_of_lt hv

theorem length_writeSeg {buf p : List Nat} {start : Nat} (h : start + 8 ≤ buf.length) :
    (writeSeg buf start p).length = buf.length + p.length := by
  unfold writeSeg
  rw [List.length_append, length_setRange (by simp [length_toLE]; omega)]

theorem slice_writeSeg_outside {buf p : List Nat} {start a b : Nat}
    (h8 : start + 8 ≤ buf.length) (hb : b ≤ buf.length)
    (hdis : b ≤ start ∨ start + 8 ≤ a) :
    slice (writeSeg buf start p) a b = slice buf a b := by
  unfold writeSeg
  have hlen8 : (toLE 4 buf.length ++ toLE 4 p.length).length = 8 := by
    simp [length_toLE]
  rw [slice_append_of_le p (by rw [length_setRange (by rw [hlen8]; omega)]; omega)]
  rcases hdis with hble | hble
  · exact slice_setRange_left hble (by omega)
  · exact slice_setRange_right (by rw [hlen8]; omega) (by rw [hlen8]; omega)

theorem writeSeg_ptr_slice {buf p : List Nat} {start : Nat} (h8 : start + 8 ≤ buf.length) :
    slice (writeSeg buf start p) start (start + 8) =
      toLE 4 buf.length ++ toLE 4 p.length := by
  unfold writeSeg
  have hlen8 : (toLE 4 buf.length ++ toLE 4 p.length).length = 8 := by
    simp [length_toLE]
  rw [slice_append_of_le p
    (by rw [length_setRange (by rw [hlen8]; omega)]; omega)]
  exact slice_setRange_self (by rw [hlen8]; omega) (by rw [hlen8])

theorem segOffset_writeSeg {buf p : List Nat} {start : Nat} (h8 : start + 8 ≤ buf.length)
    (hlt : buf.length < 256 ^ 4) : segOffset (writeSeg buf start p) start = buf.length := by
  unfold segOffset readU32
  rw [slice_front (c := start + 8) (by omega), writeSeg_ptr_slice h8]
  have : (start + 4) - start = (toLE 4 buf.length).length := by rw [length_toLE]; omega
  rw [this, List.take_left]
  exact fromLE_toLE_of_lt hlt

theorem segLength_writeSeg {buf p : List Nat} {start : Nat} (h8 : start + 8 ≤ buf.length)
    (hlt : p.length < 256 ^ 4) : segLength (writeSeg buf start p) start = p.length := by
  unfold segLength readU32
  rw [slice_suffix (a := start) (by omega)]
  rw [slice_front (c := start + 8) (by omega)]
  rw [writeSeg_ptr_slice h8]
  have h1 : start + 8 - start = 8 := by omega
  have h2 : start + 4 - start = (toLE 4 buf.length).length := by rw [length_toLE]; omega
  rw [h1, List.take_of_length_le (by simp [length_toLE]), h2, List.drop_left]
  exact fromLE_toLE_of_lt hlt

theorem segPayloadAt_writeSeg {buf p : List Nat} {start : Nat}
    (h8 : start + 8 ≤ buf.length) (hlt : buf.length + p.length < 256 ^ 4) :
    segPayloadAt (writeSeg buf start p) start = p := by
  unfold segPayloadAt
  rw [segOffset_writeSeg h8 (by omega), segLength_writeSeg h8 (by omega)]
  unfold writeSeg
  apply slice_concat₂
  · rw [length_setRange (by simp [length_toLE]; omega)]
  · rfl

theorem readChunks_flatten {w : Nat} (ps : List (List Nat))
    (h : ∀ p ∈ ps, p.length = w) : readChunks w ps.length ps.flatten = ps := by
  induction ps with
  | nil => rfl
  | cons p t ih =>
    have hp : p.length = w := h p (by simp)
    simp only [List.length_cons, List.flatten_cons, readChunks]
    rw [List.take_left' hp, List.drop_left' hp]
    rw [ih (fun q hq => h q (by simp [hq]))]

theorem length_flatten_map_toLE (w : Nat) (vs : List Nat) :
    ((vs.map (toLE w)).flatten).length = w * vs.length := by
  induction vs with
  | nil => simp
  | cons v t ih =>
    simp only [List.map_cons, List.flatten_cons, List.length_append, length_toLE, ih,
      List.length_cons]
    ring

theorem length_flatten_const {w : Nat} (hs : List (List Nat))
    (h : ∀ p ∈ hs, p.length = w) : hs.flatten.length = w * hs.length := by
  induction hs with
  | nil => simp
  | cons p t ih =>
    have hp : p.length = w := h p (by simp)
    simp only [List.flatten_cons, List.length_append, hp, List.length_cons,
      ih (fun q hq => h q (by simp [hq]))]
    ring

theorem readChunks_map_toLE {w : Nat} (vs : List Nat) (h : ∀ v ∈ vs, v < 256 ^ w) :
    (readChunks w vs.length ((vs.map (toLE w)).flatten)).map fromLE = vs := by
  have hlen : ∀ p ∈ vs.map (toLE w), p.length = w := by
    intro p hp
    rcases List.mem_map.1 hp with ⟨v, _, rfl⟩
    exact length_toLE w v
  have hc := readChunks_flatten (vs.map (toLE w)) hlen
  have hlen2 : vs.length = (vs.map (toLE w)).length := by simp
  rw [hlen2, hc, List.map_map]
  conv_rhs => rw [← List.map_id vs]
  exact List.map_congr_left (fun v hv => fromLE_toLE_of_lt (h v hv))

theorem utf8Step_encodeChar {c : Nat} (hc : c < 1114112) (rest : List Nat) :
    ∃ b cont, utf8EncodeChar c = b :: cont ∧
      utf8Step b (cont ++ rest) = some (c, cont.length) ∧
      (cont ++ rest).drop cont.length = rest := by
  unfold utf8EncodeChar
  by_cases h1 : c < 128
  · refine ⟨c, [], by simp [h1], ?_, by simp⟩
    unfold utf8Step
    rw [if_pos h1]
    rfl
  · by_cases h2 : c < 2048
    · refine ⟨192 + c / 64, [128 + c % 64], by simp [h1, h2], ?_, by simp⟩
      have ha : ¬ 192 + c / 64 < 128 := by omega
      have hb : ¬ 192 + c / 64 < 192 := by omega
      have hcc : 192 + c / 64 < 224 := by omega
      have hd : 128 ≤ 128 + c % 64 ∧ 128 + c % 64 < 192 := by omega
      unfold utf8Step
      rw [if_neg ha, if_neg hb, if_pos hcc]
      simp only [List.cons_append, if_pos hd]
      have hval : (192 + c / 64 - 192) * 64 + (128 + c % 64 - 128) = c := by omega
      rw [hval]
      rfl
    · by_cases h3 : c < 65536
      · refine ⟨224 + c / 4096, [128 + c / 64 % 64, 128 + c % 64],
          by simp [h1, h2, h3], ?_, by simp⟩
        have ha : ¬ 224 + c / 4096 < 128 := by omega
        have hb : ¬ 224 + c / 4096 < 192 := by omega
        have hcc : ¬ 224 + c / 4096 < 224 := by omega
        have hdd : 224 + c / 4096 < 240 := by omega
        have he : (128 ≤ 128 + c / 64 % 64 ∧ 128 + c / 64 % 64 < 192) ∧
            (128 ≤ 128 + c % 64 ∧ 128 + c % 64 < 192) := by omega
        unfold utf8Step
        rw [if_neg ha, if_neg hb, if_neg hcc, if_pos hdd]
        simp only [List.cons_append, if_pos he]
        have hval : (224 + c / 4096 - 224) * 4096 + (128 + c / 64 % 64 - 128) * 64 +
            (128 + c % 64 - 128) = c := by omega
        rw [hval]
        rfl
      · refine ⟨240 + c / 262144, [128 + c / 4096 % 64, 128 + c / 64 % 64, 128 + c % 64],
          by simp [h1, h2, h3], ?_, by simp⟩
        have ha : ¬ 240 + c / 262144 < 128 := by omega
        have hb : ¬ 240 + c / 262144 < 192 := by omega
        have hcc : ¬ 240 + c / 262144 < 224 := by omega
        have hdd : ¬ 240 + c / 262144 < 240 := by omega
        have he : 240 + c / 262144 < 248 := by omega
        have hf : (128 ≤ 128 + c / 4096 % 64 ∧ 128 + c / 4096 % 64 < 192) ∧
            (128 ≤ 128 + c / 64 % 64 ∧ 128 + c / 64 % 64 < 192) ∧
            (128 ≤ 128 + c % 64 ∧ 128 + c % 64 < 192) := by omega
        unfold utf8Step
        rw [if_neg ha, if_neg hb, if_neg hcc, if_neg hdd, if_pos he]
        simp only [List.cons_append, if_pos hf]
        have hval : (240 + c / 262144 - 240) * 262144 + (128 + c / 4096 % 64 - 128) * 4096 +
            (128 + c / 64 % 64 - 128) * 64 + (128 + c % 64 - 128) = c := by omega
        rw [hval]
        rfl

theorem utf8Decode_encode (s : List Nat) (h : ∀ c ∈ s, c < 1114112) :
    utf8Decode (utf8Encode s) = some s := by
  induction s with
  | nil => rw [show utf8Encode [] = [] from rfl, utf8Decode]
  | cons c t ih =>
    have hc : c < 1114112 := h c (by simp)
    unfold utf8Encode
    simp only [List.map_cons, List.flatten_cons]
    rcases utf8Step_encodeChar hc ((t.map utf8EncodeChar).flatten) with
      ⟨b, cont, henc, hstep, hdrop⟩
    rw [henc, List.cons_append, utf8Decode, hstep]
    show (utf8Decode ((cont ++ (t.map utf8EncodeChar).flatten).drop cont.length)).map
        (c :: ·) = some (c :: t)
    rw [hdrop]
    rw [show (t.map utf8EncodeChar).flatten = utf8Encode t from rfl]
    rw [ih (fun x hx => h x (by simp [hx]))]
    rfl

theorem length_innerTable (pos : Nat) (l : List (List Nat)) :
    (innerTable pos l).length = 8 * l.length := by
  induction l generalizing pos with
  | nil => rfl
  | cons e rest ih =>
    simp only [innerTable, List.length_append, length_toLE, ih, List.length_cons]
    ring

theorem slice_setRangeAppend_outside {buf bs tail : List Nat} {start a b : Nat}
    (hfit : start + bs.length ≤ buf.length) (hb : b ≤ buf.length)
    (hdis : b ≤ start ∨ start + bs.length ≤ a) :
    slice (setRange buf start bs ++ tail) a b = slice buf a b := by
  rw [slice_append_of_le tail (by rw [length_setRange hfit]; omega)]
  rcases hdis with hble | hble
  · exact slice_setRange_left hble (by omega)
  · exact slice_setRange_right hble hfit

theorem segPtr_reads {buf tail : List Nat} {start o l : Nat} (h8 : start + 8 ≤ buf.length)
    (ho : o < 256 ^ 4) (hl : l < 256 ^ 4) :
    segOffset (setRange buf start (toLE 4 o ++ toLE 4 l) ++ tail) start = o ∧
    segLength (setRange buf start (toLE 4 o ++ toLE 4 l) ++ tail) start = l := by
  have hlen8 : (toLE 4 o ++ toLE 4 l).length = 8 := by simp [length_toLE]
  have hfit : start + (toLE 4 o ++ toLE 4 l).length ≤ buf.length := by omega
  have hslice : slice (setRange buf start (toLE 4 o ++ toLE 4 l) ++ tail) start (start + 8) =
      toLE 4 o ++ toLE 4 l := by
    rw [slice_append_of_le tail (by rw [length_setRange hfit]; omega)]
    exact slice_setRange_self hfit (by omega)
  constructor
  · unfold segOffset readU32
    rw [slice_front (c := start + 8) (by omega), hslice]
    have h4 : start + 4 - start = (toLE 4 o).length := by rw [length_toLE]; omega
    rw [h4, List.take_left]
    exact fromLE_toLE_of_lt ho
  · unfold segLength readU32
    rw [slice_suffix (a := start) (by omega), slice_front (c := start + 8) (by omega), hslice]
    have h1 : start + 8 - start = 8 := by omega
    have h2 : start + 4 - start = (toLE 4 o).length := by rw [length_toLE]; omega
    rw [h1, List.take_of_length_le (by simp [length_toLE]), h2, List.drop_left]
    exact fromLE_toLE_of_lt hl

theorem readTable_concat (elems : List (List Nat)) :
    ∀ (A M J : List Nat) (poff : Nat),
      poff = A.length + 8 * elems.length + M.length →
      A.length + 8 * elems.length + M.length + (elems.map List.length).sum < 256 ^ 4 →
      readTable (A ++ innerTable poff elems ++ (M ++ elems.flatten ++ J)) A.length
        elems.length = elems := by
  induction elems with
  | nil => intro A M J poff _ _; simp [readTable]
  | cons e rest ih =>
    intro A M J poff hpoff hb
    simp only [List.length_cons, List.map_cons, List.sum_cons] at hpoff hb
    simp only [innerTable, List.flatten_cons, List.length_cons]
    have hpofflt : poff < 256 ^ 4 := by omega
    have helt : e.length < 256 ^ 4 := by omega
    have hB1 : A ++ (toLE 4 poff ++ toLE 4 e.length ++
          innerTable (poff + e.length) rest) ++ (M ++ (e ++ rest.flatten) ++ J) =
        A ++ (toLE 4 poff ++ (toLE 4 e.length ++ (innerTable (poff + e.length) rest ++
          (M ++ (e ++ (rest.flatten ++ J)))))) := by
      simp [List.append_assoc]
    have hB2 : A ++ (toLE 4 poff ++ toLE 4 e.length ++
          innerTable (poff + e.length) rest) ++ (M ++ (e ++ rest.flatten) ++ J) =
        (A ++ toLE 4 poff) ++ (toLE 4 e.length ++ (innerTable (poff + e.length) rest ++
          (M ++ (e ++ (rest.flatten ++ J))))) := by
      simp [List.append_assoc]
    have hB3 : A ++ (toLE 4 poff ++ toLE 4 e.length ++
          innerTable (poff + e.length) rest) ++ (M ++ (e ++ rest.flatten) ++ J) =
        (A ++ toLE 4 poff ++ toLE 4 e.length ++ innerTable (poff + e.length) rest ++ M) ++
          (e ++ (rest.flatten ++ J)) := by
      simp [List.append_assoc]
    have hB4 : A ++ (toLE 4 poff ++ toLE 4 e.length ++
          innerTable (poff + e.length) rest) ++ (M ++ (e ++ rest.flatten) ++ J) =
        (A ++ toLE 4 poff ++ toLE 4 e.length) ++ innerTable (poff + e.length) rest ++
          ((M ++ e) ++ rest.flatten ++ J) := by
      simp [List.append_assoc]
    have ho : readU32 (A ++ (toLE 4 poff ++ toLE 4 e.length ++
        innerTable (poff + e.length) rest) ++ (M ++ (e ++ rest.flatten) ++ J))
        A.length = poff := by
      unfold readU32
      rw [hB1]
      exact fromLE_slice_concat A _ rfl hpofflt
    have hl : readU32 (A ++ (toLE 4 poff ++ toLE 4 e.length ++
        innerTable (poff + e.length) rest) ++ (M ++ (e ++ rest.flatten) ++ J))
        (A.length + 4) = e.length := by
      unfold readU32
      rw [hB2]
      exact fromLE_slice_concat (A ++ toLE 4 poff) _ (by simp [length_toLE]) helt
    have hpay : slice (A ++ (toLE 4 poff ++ toLE 4 e.length ++
        innerTable (poff + e.length) rest) ++ (M ++ (e ++ rest.flatten) ++ J))
        poff (poff + e.length) = e := by
      rw [hB3]
      apply slice_concat'
      · simp [length_toLE, length_innerTable]
        omega
      · rfl
    have htail : readTable (A ++ (toLE 4 poff ++ toLE 4 e.length ++
        innerTable (poff + e.length) rest) ++ (M ++ (e ++ rest.flatten) ++ J))
        (A.length + 8) rest.length = rest := by
      have hA' : (A ++ toLE 4 poff ++ toLE 4 e.length).length = A.length + 8 := by
        simp [length_toLE]
      have := ih (A ++ toLE 4 poff ++ toLE 4 e.length) (M ++ e) J (poff + e.length)
        (by rw [hA']; simp; omega)
        (by rw [hA']; simp; omega)
      rw [hA'] at this
      rw [hB4]
      exact this
    rw [readTable, ho, hl, hpay, htail]

theorem checkTable_concat (elems : List (List Nat)) :
    ∀ (A M J : List Nat) (poff fe : Nat) (k : SegKind),
      poff = A.length + 8 * elems.length + M.length →
      A.length + 8 * elems.length + M.length + (elems.map List.length).sum < 256 ^ 4 →
      fe ≤ A.length →
      (∀ e ∈ elems, elemOk k e = true) →
      checkTable (A ++ innerTable poff elems ++ (M ++ elems.flatten ++ J)) fe k A.length
        elems.length = true := by
  induction elems with
  | nil => intro A M J poff fe k _ _ _ _; simp [checkTable]
  | cons e rest ih =>
    intro A M J poff fe k hpoff hb hfe helems
    simp only [List.length_cons, List.map_cons, List.sum_cons] at hpoff hb
    simp only [innerTable, List.flatten_cons, List.length_cons]
    have hpofflt : poff < 256 ^ 4 := by omega
    have helt : e.length < 256 ^ 4 := by omega
    have hB1 : A ++ (toLE 4 poff ++ toLE 4 e.length ++
          innerTable (poff + e.length) rest) ++ (M ++ (e ++ rest.flatten) ++ J) =
        A ++ (toLE 4 poff ++ (toLE 4 e.length ++ (innerTable (poff + e.length) rest ++
          (M ++ (e ++ (rest.flatten ++ J)))))) := by
      simp [List.append_assoc]
    have hB2 : A ++ (toLE 4 poff ++ toLE 4 e.length ++
          innerTable (poff + e.length) rest) ++ (M ++ (e ++ rest.flatten) ++ J) =
        (A ++ toLE 4 poff) ++ (toLE 4 e.length ++ (innerTable (poff + e.length) rest ++
          (M ++ (e ++ (rest.flatten ++ J))))) := by
      simp [List.append_assoc]
    have hB3 : A ++ (toLE 4 poff ++ toLE 4 e.length ++
          innerTable (poff + e.length) rest) ++ (M ++ (e ++ rest.flatten) ++ J) =
        (A ++ toLE 4 poff ++ toLE 4 e.length ++ innerTable (poff + e.length) rest ++ M) ++
          (e ++ (rest.flatten ++ J)) := by
      simp [List.append_assoc]
    have hB4 : A ++ (toLE 4 poff ++ toLE 4 e.length ++
          innerTable (poff + e.length) rest) ++ (M ++ (e ++ rest.flatten) ++ J) =
        (A ++ toLE 4 poff ++ toLE 4 e.length) ++ innerTable (poff + e.length) rest ++
          ((M ++ e) ++ rest.flatten ++ J) := by
      simp [List.append_assoc]
    have ho : readU32 (A ++ (toLE 4 poff ++ toLE 4 e.length ++
        innerTable (poff + e.length) rest) ++ (M ++ (e ++ rest.flatten) ++ J))
        A.length = poff := by
      unfold readU32
      rw [hB1]
      exact fromLE_slice_concat A _ rfl hpofflt
    have hl : readU32 (A ++ (toLE 4 poff ++ toLE 4 e.length ++
        innerTable (poff + e.length) rest) ++ (M ++ (e ++ rest.flatten) ++ J))
        (A.length + 4) = e.length := by
      unfold readU32
      rw [hB2]
      exact fromLE_slice_concat (A ++ toLE 4 poff) _ (by simp [length_toLE]) helt
    have hpay : slice (A ++ (toLE 4 poff ++ toLE 4 e.length ++
        innerTable (poff + e.length) rest) ++ (M ++ (e ++ rest.flatten) ++ J))
        poff (poff + e.length) = e := by
      rw [hB3]
      apply slice_concat'
      · simp [length_toLE, length_innerTable]
        omega
      · rfl
    have hblen : poff + e.length ≤ (A ++ (toLE 4 poff ++ toLE 4 e.length ++
        innerTable (poff + e.length) rest) ++ (M ++ (e ++ rest.flatten) ++ J)).length := by
      rw [hB3]
      simp only [List.length_append, length_toLE, length_innerTable]
      omega
    have htail : checkTable (A ++ (toLE 4 poff ++ toLE 4 e.length ++
        innerTable (poff + e.length) rest) ++ (M ++ (e ++ rest.flatten) ++ J)) fe k
        (A.length + 8) rest.length = true := by
      have hA' : (A ++ toLE 4 poff ++ toLE 4 e.length).length = A.length + 8 := by
        simp [length_toLE]
      have := ih (A ++ toLE 4 poff ++ toLE 4 e.length) (M ++ e) J (poff + e.length) fe k
        (by rw [hA']; simp; omega)
        (by rw [hA']; simp; omega)
        (by omega)
        (fun q hq => helems q (by simp [hq]))
      rw [hA'] at this
      rw [hB4]
      exact this
    rw [checkTable, ho, hl, hpay, htail]
    have helem : elemOk k e = true := helems e (by simp)
    simp [helem, length_toLE, length_innerTable]
    omega

theorem setRange_at_append {P Q bs : List Nat} {off : Nat} (hoff : off = P.length)
    (h : bs.length ≤ Q.length) :
    setRange (P ++ Q) off bs = P ++ (bs ++ Q.drop bs.length) := by
  subst hoff
  unfold setRange
  rw [List.take_left, List.drop_append, List.append_assoc]

theorem setRange_append_left {X Y bs : List Nat} {start : Nat}
    (h : start + bs.length ≤ X.length) :
    setRange (X ++ Y) start bs = setRange X start bs ++ Y := by
  unfold setRange
  rw [List.take_append_of_le_length (by omega), List.drop_append_of_le_length (by omega)]
  simp [List.append_assoc]

theorem length_signBytes (bs : List Nat) (sk : Nat) :
    (signBytes bs sk).length = signatureSize := by
  simp [signBytes, signatureSize]

theorem signBytes_inj_key {bs : List Nat} {sk pk : Nat} (h : sk ≠ pk) :
    signBytes bs sk ≠ signBytes bs pk := by
  intro heq
  simp only [signBytes, List.cons.injEq] at heq
  exact h (Nat.pair_eq_pair.1 heq.1).1

theorem signBytes_inj_bytes {bs bs' : List Nat} (sk : Nat) (h : bs ≠ bs') :
    signBytes bs sk ≠ signBytes bs' sk := by
  intro heq
  simp only [signBytes, List.cons.injEq] at heq
  exact h (Encodable.encode_injective ((Nat.pair_eq_pair.1 heq.1).2))

theorem length_signMessage (body : List Nat) (sk : Nat) (h8 : 8 ≤ body.length) :
    (signMessage body sk).length = body.length + signatureSize := by
  unfold signMessage
  rw [List.length_append, length_signBytes,
    length_setRange (by simp [length_toLE]; omega)]

theorem slice_signMessage {body : List Nat} (sk : Nat) {a b : Nat} (ha : 8 ≤ a)
    (hb : b ≤ body.length) (h8 : 8 ≤ body.length) :
    slice (signMessage body sk) a b = slice body a b := by
  unfold signMessage
  have hfit : 4 + (toLE 4 (body.length + signatureSize)).length ≤ body.length := by
    simp [length_toLE]; omega
  rw [slice_append_of_le _ (by rw [length_setRange hfit]; omega)]
  exact slice_setRange_right (by rw [length_toLE]; omega) hfit

theorem signMessage_take {body : List Nat} (sk : Nat) (h8 : 8 ≤ body.length) :
    (signMessage body sk).take ((signMessage body sk).length - signatureSize) =
      setRange body 4 (toLE 4 (body.length + signatureSize)) := by
  unfold signMessage
  have hlen : (setRange body 4 (toLE 4 (body.length + signatureSize))).length =
      body.length := length_setRange (by simp [length_toLE]; omega)
  rw [List.length_append, length_signBytes, hlen]
  rw [show body.length + signatureSize - signatureSize = body.length by omega]
  exact List.take_left' hlen

theorem signMessage_drop {body : List Nat} (sk : Nat) (h8 : 8 ≤ body.length) :
    (signMessage body sk).drop ((signMessage body sk).length - signatureSize) =
      signBytes (setRange body 4 (toLE 4 (body.length + signatureSize))) sk := by
  unfold signMessage
  have hlen : (setRange body 4 (toLE 4 (body.length + signatureSize))).length =
      body.length := length_setRange (by simp [length_toLE]; omega)
  rw [List.length_append, length_signBytes, hlen]
  rw [show body.length + signatureSize - signatureSize = body.length by omega]
  exact List.drop_left' hlen

theorem verify_signMessage {body : List Nat} {seed : Nat} (h8 : 8 ≤ body.length) :
    Message.verify (signMessage body (gen_keypair seed).2) (gen_keypair seed).1 = true := by
  unfold Message.verify
  have hlen := length_signMessage body (gen_keypair seed).2 h8
  rw [if_neg (by rw [hlen]; simp [headerSize, signatureSize]; omega)]
  rw [signMessage_take _ h8, signMessage_drop _ h8]
  simp [verify_signature, gen_keypair]

theorem verify_signMessage_wrong_key {body : List Nat} {seed pk : Nat}
    (h8 : 8 ≤ body.length) (hpk : pk ≠ (gen_keypair seed).1) :
    Message.verify (signMessage body (gen_keypair seed).2) pk = false := by
  unfold Message.verify
  have hlen := length_signMessage body (gen_keypair seed).2 h8
  rw [if_neg (by rw [hlen]; simp [headerSize, signatureSize]; omega)]
  rw [signMessage_take _ h8, signMessage_drop _ h8]
  simp only [verify_signature, gen_keypair, decide_eq_false_iff_not]
  exact fun heq => signBytes_inj_key (fun hsp => hpk (by simp [gen_keypair, hsp]))
    heq.symm

theorem verify_signMessage_mutated {body : List Nat} {seed i x : Nat}
    (h8 : 8 ≤ body.length)
    (hi : i < (signMessage body (gen_keypair seed).2).length - signatureSize)
    (hx : (signMessage body (gen_keypair seed).2).set i x ≠
      signMessage body (gen_keypair seed).2) :
    Message.verify ((signMessage body (gen_keypair seed).2).set i x)
      (gen_keypair seed).1 = false := by
  have hlen := length_signMessage body (gen_keypair seed).2 h8
  set b := setRange body 4 (toLE 4 (body.length + signatureSize)) with hbdef
  have hblen : b.length = body.length :=
    length_setRange (by simp [length_toLE]; omega)
  have hmsg : signMessage body (gen_keypair seed).2 =
      b ++ signBytes b (gen_keypair seed).2 := rfl
  have hib : i < b.length := by omega
  have hset : (signMessage body (gen_keypair seed).2).set i x =
      b.set i x ++ signBytes b (gen_keypair seed).2 := by
    rw [hmsg, List.set_append_left i x hib]
  have hbne : b.set i x ≠ b := by
    intro hbeq
    exact hx (by rw [hset, hbeq, hmsg])
  unfold Message.verify
  have hslen : ((signMessage body (gen_keypair seed).2).set i x).length =
      body.length + signatureSize := by rw [List.length_set, hlen]
  rw [if_neg (by rw [hslen]; simp [headerSize, signatureSize]; omega)]
  rw [hslen, hset]
  rw [show body.length + signatureSize - signatureSize = (b.set i x).length by
    simp [hblen]]
  rw [List.take_left, List.drop_left]
  simp only [verify_signature, gen_keypair, decide_eq_false_iff_not]
  exact fun heq => signBytes_inj_bytes seed (fun hbb => hbne hbb.symm) heq

theorem verify_short {raw : List Nat} (pk : Nat)
    (h : raw.length < headerSize + signatureSize) : Message.verify raw pk = false := by
  unfold Message.verify
  rw [if_pos h]

theorem rawStructOk_signMessage {body : List Nat} (sk : Nat) (h8 : 8 ≤ body.length)
    (hlt : body.length + signatureSize < 256 ^ 4) :
    rawStructOk (signMessage body sk) = true := by
  have hlen := length_signMessage body sk h8
  have hfit : 4 + (toLE 4 (body.length + signatureSize)).length ≤ body.length := by
    simp [length_toLE]; omega
  have hread : readU32 (signMessage body sk) 4 = body.length + signatureSize := by
    unfold readU32 signMessage
    rw [slice_append_of_le _ (by rw [length_setRange hfit]; omega)]
    rw [show (4 : Nat) + 4 = 4 + (toLE 4 (body.length + signatureSize)).length by
      simp [length_toLE]]
    rw [slice_setRange_self hfit rfl]
    exact fromLE_toLE_of_lt hlt
  simp [rawStructOk, hread, hlen, headerSize, signatureSize]
  omega

theorem seg_field_facts {buf p : List Nat} {start : Nat} (h8 : start + 8 ≤ buf.length)
    (hlt : buf.length + p.length < 256 ^ 4) :
    segOffset (writeSeg buf start p) start = buf.length ∧
    segLength (writeSeg buf start p) start = p.length ∧
    segPayloadAt (writeSeg buf start p) start = p ∧
    (writeSeg buf start p).length = buf.length + p.length :=
  ⟨segOffset_writeSeg h8 (by omega), segLength_writeSeg h8 (by omega),
    segPayloadAt_writeSeg h8 hlt, length_writeSeg h8⟩

theorem seg_field_check {buf p : List Nat} {start : Nat} {k : FieldKind}
    (hseg : k.isSegment = true) (hfs : k.fixedSize = 8) (h8 : start + 8 ≤ buf.length)
    (hlt : buf.length + p.length < 256 ^ 4)
    (hextra : segExtraOk k buf.length (writeSeg buf start p) buf.length p.length = true) :
    Field.check k buf.length (writeSeg buf start p) start (start + 8) = Except.ok () := by
  obtain ⟨ho, hl, hpay, hlen⟩ := seg_field_facts h8 hlt
  unfold Field.check
  rw [if_pos (⟨by rw [hfs], by rw [hlen]; omega⟩ :
    start + 8 = start + k.fixedSize ∧ start + 8 ≤ (writeSeg buf start p).length)]
  rw [if_pos hseg, if_pos (⟨by rw [ho, hl, hlen], by rw [ho],
    by rw [ho, hl]; exact hextra⟩ :
    segOffset (writeSeg buf start p) start + segLength (writeSeg buf start p) start ≤
        (writeSeg buf start p).length ∧
      buf.length ≤ segOffset (writeSeg buf start p) start ∧
      segExtraOk k buf.length (writeSeg buf start p)
        (segOffset (writeSeg buf start p) start)
        (segLength (writeSeg buf start p) start) = true)]

theorem seqWrite_eq {buf : List Nat} {start : Nat} (k : SegKind)
    (elems : List (List Nat)) {stop : Nat} :
    Field.write (FieldVal.seq k elems) buf start stop =
      setRange buf start (toLE 4 buf.length ++ toLE 4 (8 * elems.length)) ++
        (innerTable (buf.length + 8 * elems.length) elems ++ elems.flatten) := by
  show setRange buf start (toLE 4 buf.length ++ toLE 4 (8 * elems.length)) ++
      innerTable (buf.length + 8 * elems.length) elems ++ elems.flatten = _
  rw [List.append_assoc]

theorem seqWrite_facts {buf : List Nat} {start : Nat} (k : SegKind)
    (elems : List (List Nat)) (h8 : start + 8 ≤ buf.length)
    (hlt : buf.length + (8 * elems.length + (elems.map List.length).sum) < 256 ^ 4) :
    segOffset (Field.write (FieldVal.seq k elems) buf start (start + 8)) start =
      buf.length ∧
    segLength (Field.write (FieldVal.seq k elems) buf start (start + 8)) start =
      8 * elems.length ∧
    (Field.write (FieldVal.seq k elems) buf start (start + 8)).length =
      buf.length + 8 * elems.length + (elems.map List.length).sum := by
  rw [seqWrite_eq]
  refine ⟨(segPtr_reads h8 (by omega) (by omega)).1,
    (segPtr_reads h8 (by omega) (by omega)).2, ?_⟩
  rw [List.length_append, length_setRange (by simp [length_toLE]; omega)]
  simp [length_innerTable, List.length_flatten]
  omega

theorem seqWrite_readTable {buf : List Nat} {start : Nat} (k : SegKind)
    (elems : List (List Nat)) (h8 : start + 8 ≤ buf.length)
    (hlt : buf.length + (8 * elems.length + (elems.map List.length).sum) < 256 ^ 4) :
    readTable (Field.write (FieldVal.seq k elems) buf start (start + 8)) buf.length
      elems.length = elems := by
  rw [seqWrite_eq]
  have hA : (setRange buf start (toLE 4 buf.length ++ toLE 4 (8 * elems.length))).length =
      buf.length := length_setRange (by simp [length_toLE]; omega)
  have := readTable_concat elems
    (setRange buf start (toLE 4 buf.length ++ toLE 4 (8 * elems.length))) [] []
    (buf.length + 8 * elems.length) (by rw [hA]; simp) (by rw [hA]; simp; omega)
  rw [hA] at this
  simpa using this

theorem seqWrite_checkTable {buf : List Nat} {start : Nat} (k : SegKind)
    (elems : List (List Nat)) (h8 : start + 8 ≤ buf.length)
    (hlt : buf.length + (8 * elems.length + (elems.map List.length).sum) < 256 ^ 4)
    (helems : ∀ e ∈ elems, elemOk k e = true) :
    checkTable (Field.write (FieldVal.seq k elems) buf start (start + 8)) buf.length k
      buf.length elems.length = true := by
  rw [seqWrite_eq]
  have hA : (setRange buf start (toLE 4 buf.length ++ toLE 4 (8 * elems.length))).length =
      buf.length := length_setRange (by simp [length_toLE]; omega)
  have := checkTable_concat elems
    (setRange buf start (toLE 4 buf.length ++ toLE 4 (8 * elems.length))) [] []
    (buf.length + 8 * elems.length) buf.length k
    (by rw [hA]; simp) (by rw [hA]; simp; omega) (by rw [hA]) helems
  rw [hA] at this
  simpa using this

theorem scalar_field_check {k : FieldKind} (hseg : k.isSegment = false)
    {buf : List Nat} {fe start stop : Nat} (h1 : stop = start + k.fixedSize)
    (h2 : stop ≤ buf.length) : Field.check k fe buf start stop = Except.ok () := by
  unfold Field.check
  rw [if_pos (⟨h1, h2⟩ : stop = start + k.fixedSize ∧ stop ≤ buf.length)]
  rw [if_neg (by simp [hseg])]

theorem payload_slice_writeSeg {buf p : List Nat} {start : Nat}
    (h8 : start + 8 ≤ buf.length) (hlt : buf.length + p.length < 256 ^ 4) :
    slice (writeSeg buf start p) buf.length (buf.length + p.length) = p := by
  have hpay := segPayloadAt_writeSeg h8 hlt
  unfold segPayloadAt at hpay
  rw [segOffset_writeSeg h8 (by omega), segLength_writeSeg h8 (by omega)] at hpay
  exact hpay

theorem status_body_length (validator height : Nat) (lh : List Nat) (h32 : lh.length = 32) :
    (Field.write (FieldVal.digest lh)
      (Field.write (FieldVal.u64 height)
        (Field.write (FieldVal.u32 validator)
          ([0, 0, 0, 4] ++ toLE 4 0 ++ List.replicate 44 0) 8 12) 12 20) 20 52).length
      = 52 := by
  have h0 : ([0, 0, 0, 4] ++ toLE 4 0 ++ List.replicate 44 0).length = 52 := by
    simp [length_toLE]
  have l1 : (setRange ([0, 0, 0, 4] ++ toLE 4 0 ++ List.replicate 44 0) 8
      (toLE 4 validator)).length = 52 := by
    rw [length_setRange (by rw [length_toLE, h0]; omega)]
    exact h0
  have l2 : (setRange (setRange ([0, 0, 0, 4] ++ toLE 4 0 ++ List.replicate 44 0) 8
      (toLE 4 validator)) 12 (toLE 8 height)).length = 52 := by
    rw [length_setRange (by rw [length_toLE, l1]; omega)]
    exact l1
  show (setRange (setRange (setRange ([0, 0, 0, 4] ++ toLE 4 0 ++ List.replicate 44 0)
    8 (toLE 4 validator)) 12 (toLE 8 height)) 20 lh).length = 52
  rw [length_setRange (by rw [h32, l2])]
  exact l2

/-- C3: the Field round-trip law. For every well-formed field value, writing
it into a buffer and reading it back yields the value unchanged, and check
succeeds on the buffer produced by write; since sequence values carry their
element lists, the nested byte-sequence, raw-message and typed-message
sequences round-trip element-for-element in original order. In addition,
every signed Status message is a structurally valid element for the typed
and raw sequence kinds, so sequences of Status messages are covered. -/
theorem field_write_read_check_roundtrip :
    (∀ (v : FieldVal) (buf : List Nat) (start : Nat),
      v.wf → start + (FieldVal.kind v).fixedSize ≤ buf.length →
      buf.length + v.tailSize < 256 ^ 4 →
      Field.read v.kind (Field.write v buf start (start + (FieldVal.kind v).fixedSize))
          start (start + (FieldVal.kind v).fixedSize) = v ∧
        Field.check v.kind buf.length
          (Field.write v buf start (start + (FieldVal.kind v).fixedSize)) start
          (start + (FieldVal.kind v).fixedSize) = Except.ok ()) ∧
    (∀ (validator height sk : Nat) (lh : List Nat), lh.length = 32 →
      elemOk SegKind.typedMsg (Status.new validator height lh sk) = true ∧
      elemOk SegKind.rawMsg (Status.new validator height lh sk) = true) := by
  constructor
  · intro v buf start hwf hfit hbound
    cases v with
    | u16 x =>
      constructor
      · show FieldVal.u16 (readU16 (setRange buf start (toLE 2 x)) start) = FieldVal.u16 x
        unfold readU16
        rw [slice_setRange_self (by rw [length_toLE]; exact hfit) (by rw [length_toLE])]
        rw [fromLE_toLE_of_lt hwf]
      · refine scalar_field_check (k := FieldKind.u16) rfl rfl ?_
        show start + 2 ≤ (setRange buf start (toLE 2 x)).length
        rw [length_setRange (by rw [length_toLE]; exact hfit)]
        exact hfit
    | u32 x =>
      constructor
      · show FieldVal.u32 (readU32 (setRange buf start (toLE 4 x)) start) = FieldVal.u32 x
        unfold readU32
        rw [slice_setRange_self (by rw [length_toLE]; exact hfit) (by rw [length_toLE])]
        rw [fromLE_toLE_of_lt hwf]
      · refine scalar_field_check (k := FieldKind.u32) rfl rfl ?_
        show start + 4 ≤ (setRange buf start (toLE 4 x)).length
        rw [length_setRange (by rw [length_toLE]; exact hfit)]
        exact hfit
    | u64 x =>
      constructor
      · show FieldVal.u64 (readU64 (setRange buf start (toLE 8 x)) start) = FieldVal.u64 x
        unfold readU64
        rw [slice_setRange_self (by rw [length_toLE]; exact hfit) (by rw [length_toLE])]
        rw [fromLE_toLE_of_lt hwf]
      · refine scalar_field_check (k := FieldKind.u64) rfl rfl ?_
        show start + 8 ≤ (setRange buf start (toLE 8 x)).length
        rw [length_setRange (by rw [length_toLE]; exact hfit)]
        exact hfit
    | digest h =>
      have h32 : h.length = 32 := hwf
      constructor
      · show FieldVal.digest (slice (setRange buf start h) start (start + 32)) =
          FieldVal.digest h
        rw [slice_setRange_self (by rw [h32]; exact hfit) (by rw [h32])]
      · refine scalar_field_check (k := FieldKind.digest) rfl rfl ?_
        show start + 32 ≤ (setRange buf start h).length
        rw [length_setRange (by rw [h32]; exact hfit)]
        exact hfit
    | bytes b =>
      obtain ⟨ho, hl, hpay, hlen⟩ := seg_field_facts (p := b) hfit hbound
      constructor
      · show FieldVal.bytes (segPayloadAt (writeSeg buf start b) start) = FieldVal.bytes b
        rw [hpay]
      · exact seg_field_check rfl rfl hfit hbound rfl
    | text s =>
      obtain ⟨ho, hl, hpay, hlen⟩ := seg_field_facts (p := utf8Encode s) hfit hbound
      constructor
      · show FieldVal.text ((utf8Decode (segPayloadAt (writeSeg buf start
          (utf8Encode s)) start)).getD []) = FieldVal.text s
        rw [hpay, utf8Decode_encode s hwf]
        rfl
      · refine seg_field_check rfl rfl hfit hbound ?_
        show (utf8Decode (slice (writeSeg buf start (utf8Encode s)) buf.length
          (buf.length + (utf8Encode s).length))).isSome = true
        rw [payload_slice_writeSeg (p := utf8Encode s) hfit hbound,
          utf8Decode_encode s hwf]
        rfl
    | u16seq vs =>
      obtain ⟨ho, hl, hpay, hlen⟩ :=
        seg_field_facts (p := (vs.map (toLE 2)).flatten) hfit hbound
      have hplen : ((vs.map (toLE 2)).flatten).length = 2 * vs.length :=
        length_flatten_map_toLE 2 vs
      constructor
      · show FieldVal.u16seq ((readChunks 2
          (segLength (writeSeg buf start ((vs.map (toLE 2)).flatten)) start / 2)
          (segPayloadAt (writeSeg buf start ((vs.map (toLE 2)).flatten)) start)).map
            fromLE) = FieldVal.u16seq vs
        rw [hl, hpay, hplen]
        rw [show 2 * vs.length / 2 = vs.length by omega]
        rw [readChunks_map_toLE vs hwf]
      · refine seg_field_check rfl rfl hfit hbound ?_
        show decide (((vs.map (toLE 2)).flatten).length % 2 = 0) = true
        rw [hplen]
        simp
    | u32seq vs =>
      obtain ⟨ho, hl, hpay, hlen⟩ :=
        seg_field_facts (p := (vs.map (toLE 4)).flatten) hfit hbound
      have hplen : ((vs.map (toLE 4)).flatten).length = 4 * vs.length :=
        length_flatten_map_toLE 4 vs
      constructor
      · show FieldVal.u32seq ((readChunks 4
          (segLength (writeSeg buf start ((vs.map (toLE 4)).flatten)) start / 4)
          (segPayloadAt (writeSeg buf start ((vs.map (toLE 4)).flatten)) start)).map
            fromLE) = FieldVal.u32seq vs
        rw [hl, hpay, hplen]
        rw [show 4 * vs.length / 4 = vs.length by omega]
        rw [readChunks_map_toLE vs hwf]
      · refine seg_field_check rfl rfl hfit hbound ?_
        show decide (((vs.map (toLE 4)).flatten).length % 4 = 0) = true
        rw [hplen]
        simp
    | hashseq hs =>
      obtain ⟨ho, hl, hpay, hlen⟩ := seg_field_facts (p := hs.flatten) hfit hbound
      have hplen : hs.flatten.length = 32 * hs.length := length_flatten_const hs hwf
      constructor
      · show FieldVal.hashseq (readChunks 32
          (segLength (writeSeg buf start hs.flatten) start / 32)
          (segPayloadAt (writeSeg buf start hs.flatten) start)) = FieldVal.hashseq hs
        rw [hl, hpay, hplen]
        rw [show 32 * hs.length / 32 = hs.length by omega]
        rw [readChunks_flatten hs hwf]
      · refine seg_field_check rfl rfl hfit hbound ?_
        show decide (hs.flatten.length % 32 = 0) = true
        rw [hplen]
        simp
    | rawMsg m =>
      obtain ⟨ho, hl, hpay, hlen⟩ := seg_field_facts (p := m) hfit hbound
      constructor
      · show FieldVal.rawMsg (segPayloadAt (writeSeg buf start m) start) =
          FieldVal.rawMsg m
        rw [hpay]
      · refine seg_field_check rfl rfl hfit hbound ?_
        show rawStructOk (slice (writeSeg buf start m) buf.length
          (buf.length + m.length)) = true
        rw [payload_slice_writeSeg (p := m) hfit hbound]
        exact hwf
    | seq k elems =>
      have hfit8 : start + 8 ≤ buf.length := hfit
      have hbound8 : buf.length + (8 * elems.length + (elems.map List.length).sum) <
          256 ^ 4 := hbound
      obtain ⟨ho, hl, hlen⟩ := seqWrite_facts k elems hfit hbound
      constructor
      · show FieldVal.seq k (readTable
          (Field.write (FieldVal.seq k elems) buf start (start + 8))
          (segOffset (Field.write (FieldVal.seq k elems) buf start (start + 8)) start)
          (segLength (Field.write (FieldVal.seq k elems) buf start (start + 8)) start /
            8)) = FieldVal.seq k elems
        rw [ho, hl]
        rw [show 8 * elems.length / 8 = elems.length by omega]
        rw [seqWrite_readTable k elems hfit hbound]
      · show Field.check (FieldKind.seq k) buf.length
            (Field.write (FieldVal.seq k elems) buf start (start + 8)) start
            (start + 8) = Except.ok ()
        unfold Field.check
        rw [if_pos (⟨rfl, by rw [hlen]; omega⟩ :
          start + 8 = start + (FieldKind.seq k).fixedSize ∧
            start + 8 ≤ (Field.write (FieldVal.seq k elems) buf start
              (start + 8)).length)]
        have hsegk : (FieldKind.seq k).isSegment = true := rfl
        rw [if_pos hsegk]
        rw [if_pos ?hc]
        case hc =>
          refine ⟨by rw [ho, hl, hlen]; omega, by rw [ho], ?_⟩
          show (decide (segLength (Field.write (FieldVal.seq k elems) buf start
              (start + 8)) start % 8 = 0) &&
            checkTable (Field.write (FieldVal.seq k elems) buf start (start + 8))
              buf.length k
              (segOffset (Field.write (FieldVal.seq k elems) buf start (start + 8)) start)
              (segLength (Field.write (FieldVal.seq k elems) buf start (start + 8))
                start / 8)) = true
          rw [ho, hl]
          rw [show 8 * elems.length / 8 = elems.length by omega]
          rw [seqWrite_checkTable k elems hfit hbound hwf]
          simp
  · intro validator height sk lh h32
    have hshape : Status.new validator height lh sk =
        signMessage (Field.write (FieldVal.digest lh)
          (Field.write (FieldVal.u64 height)
            (Field.write (FieldVal.u32 validator)
              ([0, 0, 0, 4] ++ toLE 4 0 ++ List.replicate 44 0) 8 12) 12 20) 20 52)
          sk := rfl
    have hblen := status_body_length validator height lh h32
    have hok : rawStructOk (Status.new validator height lh sk) = true := by
      rw [hshape]
      exact rawStructOk_signMessage sk (by omega)
        (by rw [hblen]; decide)
    exact ⟨hok, hok⟩

theorem checkTable_sound {buf : List Nat} {fe : Nat} {sk : SegKind} :
    ∀ (n toff : Nat), checkTable buf fe sk toff n = true →
      ∀ e ∈ readTable buf toff n, elemOk sk e = true := by
  intro n
  induction n with
  | zero => intro toff _ e he; simp [readTable] at he
  | succ m ih =>
    intro toff hck e he
    rw [checkTable] at hck
    simp only [Bool.and_eq_true, decide_eq_true_eq] at hck
    rw [readTable] at he
    rcases List.mem_cons.1 he with rfl | hmem
    · exact hck.1.2
    · exact ih (toff + 8) hck.2 e hmem

/-- A sample sequence-of-byte-sequences value, as in the nested round-trip
scenario of the tests. -/
def sampleSeq : FieldVal :=
  FieldVal.seq SegKind.plain [[1, 2, 3], [1, 3], [2, 5, 2, 3, 56, 3]]

/-- C3 witness: the round-trip law applied to a concrete three-element
sequence written into a fresh eight-byte buffer, and the element-validity
facts for one concrete Status message. -/
theorem field_roundtrip_witness :
    (Field.read sampleSeq.kind
        (Field.write sampleSeq (List.replicate 8 0) 0 (0 + sampleSeq.kind.fixedSize)) 0
        (0 + sampleSeq.kind.fixedSize) = sampleSeq ∧
      Field.check sampleSeq.kind (List.replicate 8 0).length
        (Field.write sampleSeq (List.replicate 8 0) 0 (0 + sampleSeq.kind.fixedSize)) 0
        (0 + sampleSeq.kind.fixedSize) = Except.ok ()) ∧
    (elemOk SegKind.typedMsg (Status.new 1 2 (List.replicate 32 7) 5) = true ∧
      elemOk SegKind.rawMsg (Status.new 1 2 (List.replicate 32 7) 5) = true) :=
  ⟨field_write_read_check_roundtrip.1 sampleSeq (List.replicate 8 0) 0
      (by intro e he; rfl) (by decide) (by decide),
    field_write_read_check_roundtrip.2 1 2 5 (List.replicate 32 7) (by decide)⟩

/-- C4: Field check is total and rejects with the structural error: a field
range of the wrong size or past the end of the buffer is rejected; for a
segment, a pointer whose offset plus length exceeds the buffer, or whose
offset lies before the end of the fixed region, or whose kind-specific
nested validation fails, is rejected; and whenever the inner-pointer table
walk of a sequence succeeds, every contained element passed its own
structural check, so a malformed nested element forces rejection. -/
theorem field_check_rejects :
    (∀ (kk : FieldKind) (fe : Nat) (buf : List Nat) (start stop : Nat),
      ¬ (stop = start + kk.fixedSize ∧ stop ≤ buf.length) →
      Field.check kk fe buf start stop = Except.error CheckError.structural) ∧
    (∀ (kk : FieldKind) (fe : Nat) (buf : List Nat) (start stop : Nat),
      kk.isSegment = true →
      stop = start + kk.fixedSize → stop ≤ buf.length →
      (buf.length < segOffset buf start + segLength buf start ∨
        segOffset buf start < fe ∨
        segExtraOk kk fe buf (segOffset buf start) (segLength buf start) = false) →
      Field.check kk fe buf start stop = Except.error CheckError.structural) ∧
    (∀ (sk : SegKind) (fe : Nat) (buf : List Nat) (n toff : Nat),
      checkTable buf fe sk toff n = true →
      ∀ e ∈ readTable buf toff n, elemOk sk e = true) := by
  refine ⟨?_, ?_, ?_⟩
  · intro kk fe buf start stop h
    unfold Field.check
    rw [if_neg h]
  · intro kk fe buf start stop hseg h1 h2 hbad
    unfold Field.check
    rw [if_pos ⟨h1, h2⟩, if_pos hseg]
    rw [if_neg ?hneg]
    case hneg =>
      intro hcon
      rcases hbad with hb | hb | hb
      · omega
      · omega
      · rw [hcon.2.2] at hb
        exact Bool.true_eq_false.mp hb
  · intro sk fe buf n toff
    exact checkTable_sound n toff

/-- C4 witness: the rejection facts applied at concrete malformed buffers:
a truncated empty buffer, a buffer whose only segment pointer reaches one
byte past the end, and a one-entry table whose element is checked. -/
theorem field_check_rejects_witness :
    Field.check FieldKind.bytes 0 [] 0 8 = Except.error CheckError.structural ∧
    Field.check FieldKind.bytes 8 [0, 0, 0, 0, 9, 0, 0, 0] 0 8 =
      Except.error CheckError.structural ∧
    (∀ e ∈ readTable (toLE 4 8 ++ toLE 4 2 ++ [7, 9]) 0 1,
      elemOk SegKind.plain e = true) := by
  refine ⟨?_, ?_, ?_⟩
  · exact field_check_rejects.1 FieldKind.bytes 0 [] 0 8 (by decide)
  · exact field_check_rejects.2.1 FieldKind.bytes 8 [0, 0, 0, 0, 9, 0, 0, 0] 0 8
      (by decide) (by decide) (by decide) (by decide)
  · exact field_check_rejects.2.2 SegKind.plain 0 (toLE 4 8 ++ toLE 4 2 ++ [7, 9]) 1 0
      (by decide)

/-- C5: signature integrity. A message signed with the secret half of a
keypair verifies under the matching public half; verification fails under
any other public key, fails after any single-byte mutation of the signed
region, and fails (returning false, not panicking) on any buffer shorter
than a minimal header plus trailer. -/
theorem message_signature_integrity :
    (∀ (body : List Nat) (seed : Nat), 8 ≤ body.length →
      Message.verify (signMessage body (gen_keypair seed).2) (gen_keypair seed).1 =
        true) ∧
    (∀ (body : List Nat) (seed pk : Nat), 8 ≤ body.length →
      pk ≠ (gen_keypair seed).1 →
      Message.verify (signMessage body (gen_keypair seed).2) pk = false) ∧
    (∀ (body : List Nat) (seed i x : Nat), 8 ≤ body.length →
      i < (signMessage body (gen_keypair seed).2).length - signatureSize →
      (signMessage body (gen_keypair seed).2).set i x ≠
        signMessage body (gen_keypair seed).2 →
      Message.verify ((signMessage body (gen_keypair seed).2).set i x)
        (gen_keypair seed).1 = false) ∧
    (∀ (raw : List Nat) (pk : Nat), raw.length < headerSize + signatureSize →
      Message.verify raw pk = false) :=
  ⟨fun _ _ h8 => verify_signMessage h8,
    fun _ _ _ h8 hpk => verify_signMessage_wrong_key h8 hpk,
    fun _ _ _ _ h8 hi hx => verify_signMessage_mutated h8 hi hx,
    fun _ pk h => verify_short pk h⟩

/-- C5 witness: the four signature-integrity facts applied to one concrete
eight-byte body signed with the keypair of seed 3, the foreign key 4, the
mutation writing 5 into byte 0, and a one-byte buffer. -/
theorem message_signature_integrity_witness :
    Message.verify (signMessage (List.replicate 8 0) (gen_keypair 3).2)
      (gen_keypair 3).1 = true ∧
    Message.verify (signMessage (List.replicate 8 0) (gen_keypair 3).2) 4 = false ∧
    Message.verify ((signMessage (List.replicate 8 0) (gen_keypair 3).2).set 0 5)
      (gen_keypair 3).1 = false ∧
    Message.verify [7] 4 = false := by
  refine ⟨?_, ?_, ?_, ?_⟩
  · exact message_signature_integrity.1 (List.replicate 8 0) 3 (by decide)
  · exact message_signature_integrity.2.1 (List.replicate 8 0) 3 4 (by decide) (by decide)
  · refine message_signature_integrity.2.2.1 (List.replicate 8 0) 3 0 5 (by decide) ?_ ?_
    · rw [length_signMessage _ _ (by decide)]
      decide
    · intro heq
      have h0 : ((signMessage (List.replicate 8 0) (gen_keypair 3).2).set 0 5).get? 0 =
          (signMessage (List.replicate 8 0) (gen_keypair 3).2).get? 0 := by rw [heq]
      rw [show signMessage (List.replicate 8 0) (gen_keypair 3).2 =
        setRange (List.replicate 8 0) 4 (toLE 4 (8 + signatureSize)) ++
          signBytes (setRange (List.replicate 8 0) 4 (toLE 4 (8 + signatureSize)))
            (gen_keypair 3).2 from by
          unfold signMessage
          rw [show (List.replicate 8 (0 : Nat)).length = 8 from rfl]] at h0
      revert h0
      decide
  · exact message_signature_integrity.2.2.2 [7] 4 (by decide)

theorem write_rep_step (m m1 w : Nat) {P bs : List Nat} {off : Nat} (hoff : off = P.length)
    (hbs : bs.length = w) (hm : w ≤ m) (hm1 : m1 = m - w) :
    setRange (P ++ List.replicate m 0) off bs = P ++ bs ++ List.replicate m1 0 := by
  rw [setRange_at_append hoff (by simp [hbs]; omega)]
  rw [← List.append_assoc]
  congr 1
  rw [hbs, hm1]
  simp [List.drop_replicate]

theorem propose_body_shape (validator height round sec nsec : Nat) (prev : List Nat)
    (txs : List (List Nat)) (hprev : prev.length = 32) :
    Field.write (FieldVal.hashseq txs)
      (Field.write (FieldVal.digest prev)
        (Field.write (FieldVal.u32 nsec)
          (Field.write (FieldVal.u64 sec)
            (Field.write (FieldVal.u32 round)
              (Field.write (FieldVal.u64 height)
                (Field.write (FieldVal.u32 validator)
                  ([0, 0, 0, 1] ++ toLE 4 0 ++ List.replicate 68 0) 8 12) 12 20)
              20 24) 24 32) 32 36) 36 68) 68 76 =
      [0, 0, 0, 1] ++ toLE 4 0 ++ toLE 4 validator ++ toLE 8 height ++ toLE 4 round ++
        toLE 8 sec ++ toLE 4 nsec ++ prev ++ toLE 4 76 ++ toLE 4 txs.flatten.length ++
        txs.flatten := by
  show writeSeg
    (setRange
      (setRange
        (setRange
          (setRange
            (setRange
              (setRange ([0, 0, 0, 1] ++ toLE 4 0 ++ List.replicate 68 0)
                8 (toLE 4 validator)) 12 (toLE 8 height)) 20 (toLE 4 round))
            24 (toLE 8 sec)) 32 (toLE 4 nsec)) 36 prev) 68 txs.flatten = _
  rw [write_rep_step 68 64 4
    (by simp [length_toLE]) (length_toLE 4 validator) (by omega) (by omega)]
  rw [write_rep_step 64 56 8
    (by simp [length_toLE]) (length_toLE 8 height) (by omega) (by omega)]
  rw [write_rep_step 56 52 4
    (by simp [length_toLE]) (length_toLE 4 round) (by omega) (by omega)]
  rw [write_rep_step 52 44 8
    (by simp [length_toLE]) (length_toLE 8 sec) (by omega) (by omega)]
  rw [write_rep_step 44 40 4
    (by simp [length_toLE]) (length_toLE 4 nsec) (by omega) (by omega)]
  rw [write_rep_step 40 8 32
    (by simp [length_toLE]) hprev (by omega) (by omega)]
  unfold writeSeg
  have h76 : (([0, 0, 0, 1] : List Nat) ++ toLE 4 0 ++ toLE 4 validator ++
      toLE 8 height ++ toLE 4 round ++ toLE 8 sec ++ toLE 4 nsec ++ prev ++
      List.replicate 8 0).length = 76 := by
    simp [length_toLE, hprev]
  rw [h76]
  rw [write_rep_step 8 0 8
    (by simp [length_toLE, hprev]) (by simp [length_toLE]) (by omega) (by omega)]
  simp [List.append_assoc]

/-- C6: the Propose end-to-end scenario. A Propose built with validator
123123, height 123123123, round 321321312, any timestamp, any previous-block
hash, and transaction hashes (t1, t2, t2) with the second and third
identical, signed with the secret key of a keypair, reads back exactly the
original values through every accessor, keeps the duplicate hash at index 2
equal to index 1, and verifies under the matching public key. -/
theorem propose_roundtrip (sec nsec seed : Nat) (prev t1 t2 : List Nat)
    (hsec : sec < 256 ^ 8) (hnsec : nsec < 256 ^ 4) (hprev : prev.length = 32)
    (h1 : t1.length = 32) (h2 : t2.length = 32) :
    Propose.validator (Propose.new 123123 123123123 321321312 sec nsec prev
        [t1, t2, t2] (gen_keypair seed).2) = 123123 ∧
    Propose.height (Propose.new 123123 123123123 321321312 sec nsec prev
        [t1, t2, t2] (gen_keypair seed).2) = 123123123 ∧
    Propose.round (Propose.new 123123 123123123 321321312 sec nsec prev
        [t1, t2, t2] (gen_keypair seed).2) = 321321312 ∧
    Propose.time (Propose.new 123123 123123123 321321312 sec nsec prev
        [t1, t2, t2] (gen_keypair seed).2) = (sec, nsec) ∧
    Propose.prev_hash (Propose.new 123123 123123123 321321312 sec nsec prev
        [t1, t2, t2] (gen_keypair seed).2) = prev ∧
    Propose.transactions (Propose.new 123123 123123123 321321312 sec nsec prev
        [t1, t2, t2] (gen_keypair seed).2) = [t1, t2, t2] ∧
    (Propose.transactions (Propose.new 123123 123123123 321321312 sec nsec prev
        [t1, t2, t2] (gen_keypair seed).2)).get? 2 =
      (Propose.transactions (Propose.new 123123 123123123 321321312 sec nsec prev
        [t1, t2, t2] (gen_keypair seed).2)).get? 1 ∧
    Message.verify (Propose.new 123123 123123123 321321312 sec nsec prev
        [t1, t2, t2] (gen_keypair seed).2) (gen_keypair seed).1 = true := by
  have hflat : ([t1, t2, t2] : List (List Nat)).flatten.length = 96 := by
    simp [h1, h2]
  have hshape : Propose.new 123123 123123123 321321312 sec nsec prev [t1, t2, t2]
      (gen_keypair seed).2 =
      signMessage ([0, 0, 0, 1] ++ toLE 4 0 ++ toLE 4 123123 ++ toLE 8 123123123 ++
        toLE 4 321321312 ++ toLE 8 sec ++ toLE 4 nsec ++ prev ++ toLE 4 76 ++
        toLE 4 ([t1, t2, t2] : List (List Nat)).flatten.length ++
        ([t1, t2, t2] : List (List Nat)).flatten) (gen_keypair seed).2 := by
    unfold Propose.new mkMessage
    beta_reduce
    rw [propose_body_shape 123123 123123123 321321312 sec nsec prev [t1, t2, t2] hprev]
  have hblen : ([0, 0, 0, 1] ++ toLE 4 0 ++ toLE 4 123123 ++ toLE 8 123123123 ++
      toLE 4 321321312 ++ toLE 8 sec ++ toLE 4 nsec ++ prev ++ toLE 4 76 ++
      toLE 4 ([t1, t2, t2] : List (List Nat)).flatten.length ++
      ([t1, t2, t2] : List (List Nat)).flatten).length = 172 := by
    simp [length_toLE, hprev, h1, h2]
  have htx : Propose.transactions (Propose.new 123123 123123123 321321312 sec nsec
      prev [t1, t2, t2] (gen_keypair seed).2) = [t1, t2, t2] := by
    show readChunks 32 (segLength _ 68 / 32) (segPayloadAt _ 68) = [t1, t2, t2]
    rw [hshape]
    have hl : segLength (signMessage ([0, 0, 0, 1] ++ toLE 4 0 ++ toLE 4 123123 ++
        toLE 8 123123123 ++ toLE 4 321321312 ++ toLE 8 sec ++ toLE 4 nsec ++ prev ++
        toLE 4 76 ++ toLE 4 ([t1, t2, t2] : List (List Nat)).flatten.length ++
        ([t1, t2, t2] : List (List Nat)).flatten) (gen_keypair seed).2) 68 = 96 := by
      unfold segLength readU32
      rw [slice_signMessage _ (by omega) (by omega) (by omega)]
      rw [show [0, 0, 0, 1] ++ toLE 4 0 ++ toLE 4 123123 ++ toLE 8 123123123 ++
        toLE 4 321321312 ++ toLE 8 sec ++ toLE 4 nsec ++ prev ++ toLE 4 76 ++
        toLE 4 ([t1, t2, t2] : List (List Nat)).flatten.length ++
        ([t1, t2, t2] : List (List Nat)).flatten =
        ([0, 0, 0, 1] ++ toLE 4 0 ++ toLE 4 123123 ++ toLE 8 123123123 ++
        toLE 4 321321312 ++ toLE 8 sec ++ toLE 4 nsec ++ prev ++ toLE 4 76) ++
        (toLE 4 ([t1, t2, t2] : List (List Nat)).flatten.length ++
        ([t1, t2, t2] : List (List Nat)).flatten) from by simp [List.append_assoc]]
      rw [hflat]
      exact fromLE_slice_concat _ _ (by simp [length_toLE, hprev]) (by norm_num)
    have ho : segOffset (signMessage ([0, 0, 0, 1] ++ toLE 4 0 ++ toLE 4 123123 ++
        toLE 8 123123123 ++ toLE 4 321321312 ++ toLE 8 sec ++ toLE 4 nsec ++ prev ++
        toLE 4 76 ++ toLE 4 ([t1, t2, t2] : List (List Nat)).flatten.length ++
        ([t1, t2, t2] : List (List Nat)).flatten) (gen_keypair seed).2) 68 = 76 := by
      unfold segOffset readU32
      rw [slice_signMessage _ (by omega) (by omega) (by omega)]
      rw [show [0, 0, 0, 1] ++ toLE 4 0 ++ toLE 4 123123 ++ toLE 8 123123123 ++
        toLE 4 321321312 ++ toLE 8 sec ++ toLE 4 nsec ++ prev ++ toLE 4 76 ++
        toLE 4 ([t1, t2, t2] : List (List Nat)).flatten.length ++
        ([t1, t2, t2] : List (List Nat)).flatten =
        ([0, 0, 0, 1] ++ toLE 4 0 ++ toLE 4 123123 ++ toLE 8 123123123 ++
        toLE 4 321321312 ++ toLE 8 sec ++ toLE 4 nsec ++ prev) ++ (toLE 4 76 ++
        (toLE 4 ([t1, t2, t2] : List (List Nat)).flatten.length ++
        ([t1, t2, t2] : List (List Nat)).flatten)) from by simp [List.append_assoc]]
      exact fromLE_slice_concat _ _ (by simp [length_toLE, hprev]) (by norm_num)
    unfold segPayloadAt
    rw [ho, hl]
    rw [slice_signMessage _ (by omega) (by omega) (by omega)]
    rw [show [0, 0, 0, 1] ++ toLE 4 0 ++ toLE 4 123123 ++ toLE 8 123123123 ++
      toLE 4 321321312 ++ toLE 8 sec ++ toLE 4 nsec ++ prev ++ toLE 4 76 ++
      toLE 4 ([t1, t2, t2] : List (List Nat)).flatten.length ++
      ([t1, t2, t2] : List (List Nat)).flatten =
      ([0, 0, 0, 1] ++ toLE 4 0 ++ toLE 4 123123 ++ toLE 8 123123123 ++
      toLE 4 321321312 ++ toLE 8 sec ++ toLE 4 nsec ++ prev ++ toLE 4 76 ++
      toLE 4 ([t1, t2, t2] : List (List Nat)).flatten.length) ++
      ([t1, t2, t2] : List (List Nat)).flatten from by simp [List.append_assoc]]
    rw [slice_concat₂ _ _ (by simp [length_toLE, hprev]) (by rw [hflat])]
    rw [show (96 : Nat) / 32 = ([t1, t2, t2] : List (List Nat)).length from by simp]
    exact readChunks_flatten [t1, t2, t2] (by
      intro p hp
      rcases List.mem_cons.1 hp with rfl | hp
      · exact h1
      · rcases List.mem_cons.1 hp with rfl | hp
        · exact h2
        · rcases List.mem_cons.1 hp with rfl | hp
          · exact h2
          · simp at hp)
  refine ⟨?_, ?_, ?_, ?_, ?_, ?_, ?_, ?_⟩
  · show readU32 _ 8 = 123123
    rw [hshape]
    unfold readU32
    rw [slice_signMessage _ (by omega) (by omega) (by omega)]
    rw [show [0, 0, 0, 1] ++ toLE 4 0 ++ toLE 4 123123 ++ toLE 8 123123123 ++
      toLE 4 321321312 ++ toLE 8 sec ++ toLE 4 nsec ++ prev ++ toLE 4 76 ++
      toLE 4 ([t1, t2, t2] : List (List Nat)).flatten.length ++
      ([t1, t2, t2] : List (List Nat)).flatten =
      ([0, 0, 0, 1] ++ toLE 4 0) ++ (toLE 4 123123 ++ (toLE 8 123123123 ++
      (toLE 4 321321312 ++ (toLE 8 sec ++ (toLE 4 nsec ++ (prev ++ (toLE 4 76 ++
      (toLE 4 ([t1, t2, t2] : List (List Nat)).flatten.length ++
      ([t1, t2, t2] : List (List Nat)).flatten)))))))) from by simp [List.append_assoc]]
    exact fromLE_slice_concat _ _ (by simp [length_toLE]) (by norm_num)
  · show readU64 _ 12 = 123123123
    rw [hshape]
    unfold readU64
    rw [slice_signMessage _ (by omega) (by omega) (by omega)]
    rw [show [0, 0, 0, 1] ++ toLE 4 0 ++ toLE 4 123123 ++ toLE 8 123123123 ++
      toLE 4 321321312 ++ toLE 8 sec ++ toLE 4 nsec ++ prev ++ toLE 4 76 ++
      toLE 4 ([t1, t2, t2] : List (List Nat)).flatten.length ++
      ([t1, t2, t2] : List (List Nat)).flatten =
      ([0, 0, 0, 1] ++ toLE 4 0 ++ toLE 4 123123) ++ (toLE 8 123123123 ++
      (toLE 4 321321312 ++ (toLE 8 sec ++ (toLE 4 nsec ++ (prev ++ (toLE 4 76 ++
      (toLE 4 ([t1, t2, t2] : List (List Nat)).flatten.length ++
      ([t1, t2, t2] : List (List Nat)).flatten))))))) from by simp [List.append_assoc]]
    exact fromLE_slice_concat _ _ (by simp [length_toLE]) (by norm_num)
  · show readU32 _ 20 = 321321312
    rw [hshape]
    unfold readU32
    rw [slice_signMessage _ (by omega) (by omega) (by omega)]
    rw [show [0, 0, 0, 1] ++ toLE 4 0 ++ toLE 4 123123 ++ toLE 8 123123123 ++
      toLE 4 321321312 ++ toLE 8 sec ++ toLE 4 nsec ++ prev ++ toLE 4 76 ++
      toLE 4 ([t1, t2, t2] : List (List Nat)).flatten.length ++
      ([t1, t2, t2] : List (List Nat)).flatten =
      ([0, 0, 0, 1] ++ toLE 4 0 ++ toLE 4 123123 ++ toLE 8 123123123) ++
      (toLE 4 321321312 ++ (toLE 8 sec ++ (toLE 4 nsec ++ (prev ++ (toLE 4 76 ++
      (toLE 4 ([t1, t2, t2] : List (List Nat)).flatten.length ++
      ([t1, t2, t2] : List (List Nat)).flatten)))))) from by simp [List.append_assoc]]
    exact fromLE_slice_concat _ _ (by simp [length_toLE]) (by norm_num)
  · show (readU64 _ 24, readU32 _ 32) = (sec, nsec)
    rw [hshape]
    unfold readU64 readU32
    rw [slice_signMessage _ (by omega) (by omega) (by omega)]
    rw [slice_signMessage _ (by omega) (by omega) (by omega)]
    rw [show [0, 0, 0, 1] ++ toLE 4 0 ++ toLE 4 123123 ++ toLE 8 123123123 ++
      toLE 4 321321312 ++ toLE 8 sec ++ toLE 4 nsec ++ prev ++ toLE 4 76 ++
      toLE 4 ([t1, t2, t2] : List (List Nat)).flatten.length ++
      ([t1, t2, t2] : List (List Nat)).flatten =
      ([0, 0, 0, 1] ++ toLE 4 0 ++ toLE 4 123123 ++ toLE 8 123123123 ++
      toLE 4 321321312) ++ (toLE 8 sec ++ (toLE 4 nsec ++ (prev ++ (toLE 4 76 ++
      (toLE 4 ([t1, t2, t2] : List (List Nat)).flatten.length ++
      ([t1, t2, t2] : List (List Nat)).flatten))))) from by simp [List.append_assoc]]
    rw [fromLE_slice_concat _ _ (by simp [length_toLE]) hsec]
    rw [show ([0, 0, 0, 1] ++ toLE 4 0 ++ toLE 4 123123 ++ toLE 8 123123123 ++
      toLE 4 321321312) ++ (toLE 8 sec ++ (toLE 4 nsec ++ (prev ++ (toLE 4 76 ++
      (toLE 4 ([t1, t2, t2] : List (List Nat)).flatten.length ++
      ([t1, t2, t2] : List (List Nat)).flatten))))) =
      ([0, 0, 0, 1] ++ toLE 4 0 ++ toLE 4 123123 ++ toLE 8 123123123 ++
      toLE 4 321321312 ++ toLE 8 sec) ++ (toLE 4 nsec ++ (prev ++ (toLE 4 76 ++
      (toLE 4 ([t1, t2, t2] : List (List Nat)).flatten.length ++
      ([t1, t2, t2] : List (List Nat)).flatten)))) from by simp [List.append_assoc]]
    rw [fromLE_slice_concat _ _ (by simp [length_toLE]) hnsec]
  · show slice _ 36 68 = prev
    rw [hshape]
    rw [slice_signMessage _ (by omega) (by omega) (by omega)]
    rw [show [0, 0, 0, 1] ++ toLE 4 0 ++ toLE 4 123123 ++ toLE 8 123123123 ++
      toLE 4 321321312 ++ toLE 8 sec ++ toLE 4 nsec ++ prev ++ toLE 4 76 ++
      toLE 4 ([t1, t2, t2] : List (List Nat)).flatten.length ++
      ([t1, t2, t2] : List (List Nat)).flatten =
      ([0, 0, 0, 1] ++ toLE 4 0 ++ toLE 4 123123 ++ toLE 8 123123123 ++
      toLE 4 321321312 ++ toLE 8 sec ++ toLE 4 nsec) ++ (prev ++ (toLE 4 76 ++
      (toLE 4 ([t1, t2, t2] : List (List Nat)).flatten.length ++
      ([t1, t2, t2] : List (List Nat)).flatten))) from by simp [List.append_assoc]]
    exact slice_concat' _ _ _ (by simp [length_toLE]) (by rw [hprev])
  · exact htx
  · rw [htx]
    rfl
  · rw [hshape]
    exact verify_signMessage (by omega)

theorem length_BlockContent_encode (c : BlockContent) (hwf : c.wf) :
    c.encode.length = 116 := by
  obtain ⟨_, _, _, h1, h2, h3⟩ := hwf
  simp [BlockContent.encode, length_toLE, h1, h2, h3]

theorem slice_take_zero {l : List Nat} {n : Nat} : slice l 0 n = l.take n := by
  simp [slice]

theorem BlockContent_decode_encode (c : BlockContent) (hwf : c.wf) :
    BlockContent.decode c.encode = c := by
  obtain ⟨hh, hs, hn, h1, h2, h3⟩ := hwf
  unfold BlockContent.decode BlockContent.encode
  have e1 : slice (toLE 8 c.height ++ toLE 8 c.sec ++ toLE 4 c.nsec ++ c.prev_hash ++
      c.tx_hash ++ c.state_hash) 0 8 = toLE 8 c.height := by
    rw [slice_take_zero]
    rw [show toLE 8 c.height ++ toLE 8 c.sec ++ toLE 4 c.nsec ++ c.prev_hash ++
      c.tx_hash ++ c.state_hash = toLE 8 c.height ++ (toLE 8 c.sec ++ (toLE 4 c.nsec ++
      (c.prev_hash ++ (c.tx_hash ++ c.state_hash)))) from by simp [List.append_assoc]]
    exact List.take_left' (length_toLE 8 c.height)
  have e2 : fromLE (slice (toLE 8 c.height ++ toLE 8 c.sec ++ toLE 4 c.nsec ++
      c.prev_hash ++ c.tx_hash ++ c.state_hash) 8 16) = c.sec := by
    rw [show toLE 8 c.height ++ toLE 8 c.sec ++ toLE 4 c.nsec ++ c.prev_hash ++
      c.tx_hash ++ c.state_hash = toLE 8 c.height ++ (toLE 8 c.sec ++ (toLE 4 c.nsec ++
      (c.prev_hash ++ (c.tx_hash ++ c.state_hash)))) from by simp [List.append_assoc]]
    exact fromLE_slice_concat _ _ (by simp [length_toLE]) hs
  have e3 : fromLE (slice (toLE 8 c.height ++ toLE 8 c.sec ++ toLE 4 c.nsec ++
      c.prev_hash ++ c.tx_hash ++ c.state_hash) 16 20) = c.nsec := by
    rw [show toLE 8 c.height ++ toLE 8 c.sec ++ toLE 4 c.nsec ++ c.prev_hash ++
      c.tx_hash ++ c.state_hash = (toLE 8 c.height ++ toLE 8 c.sec) ++ (toLE 4 c.nsec ++
      (c.prev_hash ++ (c.tx_hash ++ c.state_hash))) from by simp [List.append_assoc]]
    exact fromLE_slice_concat _ _ (by simp [length_toLE]) hn
  have e4 : slice (toLE 8 c.height ++ toLE 8 c.sec ++ toLE 4 c.nsec ++ c.prev_hash ++
      c.tx_hash ++ c.state_hash) 20 52 = c.prev_hash := by
    rw [show toLE 8 c.height ++ toLE 8 c.sec ++ toLE 4 c.nsec ++ c.prev_hash ++
      c.tx_hash ++ c.state_hash = (toLE 8 c.height ++ toLE 8 c.sec ++ toLE 4 c.nsec) ++
      (c.prev_hash ++ (c.tx_hash ++ c.state_hash)) from by simp [List.append_assoc]]
    exact slice_concat' _ _ _ (by simp [length_toLE]) (by rw [h1])
  have e5 : slice (toLE 8 c.height ++ toLE 8 c.sec ++ toLE 4 c.nsec ++ c.prev_hash ++
      c.tx_hash ++ c.state_hash) 52 84 = c.tx_hash := by
    rw [show toLE 8 c.height ++ toLE 8 c.sec ++ toLE 4 c.nsec ++ c.prev_hash ++
      c.tx_hash ++ c.state_hash = (toLE 8 c.height ++ toLE 8 c.sec ++ toLE 4 c.nsec ++
      c.prev_hash) ++ (c.tx_hash ++ c.state_hash) from by simp [List.append_assoc]]
    exact slice_concat' _ _ _ (by simp [length_toLE, h1]) (by rw [h2])
  have e6 : slice (toLE 8 c.height ++ toLE 8 c.sec ++ toLE 4 c.nsec ++ c.prev_hash ++
      c.tx_hash ++ c.state_hash) 84 116 = c.state_hash := by
    rw [show toLE 8 c.height ++ toLE 8 c.sec ++ toLE 4 c.nsec ++ c.prev_hash ++
      c.tx_hash ++ c.state_hash = (toLE 8 c.height ++ toLE 8 c.sec ++ toLE 4 c.nsec ++
      c.prev_hash ++ c.tx_hash) ++ c.state_hash from by simp [List.append_assoc]]
    exact slice_concat₂ _ _ (by simp [length_toLE, h1, h2]) (by rw [h3])
  rw [e1, e2, e3, e4, e5, e6, fromLE_toLE_of_lt hh]

theorem block_body_shape (c : BlockContent) (p1 p2 p3 t1 t2 t3 : List Nat)
    (henc : c.encode.length = 116) :
    Field.write (FieldVal.seq SegKind.rawMsg [t1, t2, t3])
      (Field.write (FieldVal.seq SegKind.typedMsg [p1, p2, p3])
        (setRange ([0, 0, 0, 6] ++ toLE 4 0 ++ List.replicate 132 0) 8 c.encode)
        124 132) 132 140 =
      [0, 0, 0, 6] ++ toLE 4 0 ++ c.encode ++ (toLE 4 140 ++ toLE 4 24) ++
        (toLE 4 (164 + ([p1, p2, p3] : List (List Nat)).flatten.length) ++
          toLE 4 24) ++
        innerTable 164 [p1, p2, p3] ++ ([p1, p2, p3] : List (List Nat)).flatten ++
        innerTable (164 + ([p1, p2, p3] : List (List Nat)).flatten.length + 24)
          [t1, t2, t3] ++ ([t1, t2, t3] : List (List Nat)).flatten := by
  rw [write_rep_step 132 16 116
    (by simp [length_toLE]) henc (by omega) (by omega)]
  rw [seqWrite_eq SegKind.typedMsg [p1, p2, p3]]
  have h140 : (([0, 0, 0, 6] : List Nat) ++ toLE 4 0 ++ c.encode ++
      List.replicate 16 0).length = 140 := by
    simp [length_toLE, henc]
  rw [h140]
  rw [show 8 * ([p1, p2, p3] : List (List Nat)).length = 24 from rfl]
  rw [show (140 : Nat) + 24 = 164 from rfl]
  rw [show ([0, 0, 0, 6] : List Nat) ++ toLE 4 0 ++ c.encode ++ List.replicate 16 0 =
    (([0, 0, 0, 6] : List Nat) ++ toLE 4 0 ++ c.encode) ++ List.replicate 16 0 from by
    simp [List.append_assoc]]
  rw [write_rep_step 16 8 8
    (by simp [length_toLE, henc]) (by simp [length_toLE]) (by omega) (by omega)]
  rw [seqWrite_eq SegKind.rawMsg [t1, t2, t3]]
  rw [show 8 * ([t1, t2, t3] : List (List Nat)).length = 24 from rfl]
  have h164 : (([0, 0, 0, 6] : List Nat) ++ toLE 4 0 ++ c.encode ++
      (toLE 4 140 ++ toLE 4 24) ++ List.replicate 8 0 ++
      (innerTable 164 [p1, p2, p3] ++
        ([p1, p2, p3] : List (List Nat)).flatten)).length =
      164 + ([p1, p2, p3] : List (List Nat)).flatten.length := by
    simp [length_toLE, henc, length_innerTable]
    omega
  rw [h164]
  have hgroup : ([0, 0, 0, 6] : List Nat) ++ toLE 4 0 ++ c.encode ++
      (toLE 4 140 ++ toLE 4 24) ++ List.replicate 8 0 ++
      (innerTable 164 [p1, p2, p3] ++ ([p1, p2, p3] : List (List Nat)).flatten) =
      (([0, 0, 0, 6] : List Nat) ++ toLE 4 0 ++ c.encode ++
        (toLE 4 140 ++ toLE 4 24)) ++
      (List.replicate 8 0 ++ (innerTable 164 [p1, p2, p3] ++
        ([p1, p2, p3] : List (List Nat)).flatten)) := by
    simp [List.append_assoc]
  rw [hgroup]
  rw [setRange_at_append (by simp [length_toLE, henc]) (by simp [length_toLE])]
  rw [show (toLE 4 (164 + ([p1, p2, p3] : List (List Nat)).flatten.length) ++
    toLE 4 24).length = 8 from by simp [length_toLE]]
  rw [List.drop_left' (by simp : (List.replicate 8 (0 : Nat)).length = 8)]
  simp [List.append_assoc]

/-- C7: the Block end-to-end scenario. A Block built from a well-formed
block-header content, three precommit message buffers and three transaction
message buffers, then decoded, returns the original content through block()
and the original two lists element-by-element in original order through
precommits() and transactions(). -/
theorem block_roundtrip (c : BlockContent) (p1 p2 p3 t1 t2 t3 : List Nat) (seed : Nat)
    (hwf : c.wf)
    (hbound : 252 + (p1.length + p2.length + p3.length +
      (t1.length + t2.length + t3.length)) < 256 ^ 4) :
    Block.block (Block.new c [p1, p2, p3] [t1, t2, t3] (gen_keypair seed).2) = c ∧
    Block.precommits (Block.new c [p1, p2, p3] [t1, t2, t3] (gen_keypair seed).2) =
      [p1, p2, p3] ∧
    Block.transactions (Block.new c [p1, p2, p3] [t1, t2, t3] (gen_keypair seed).2) =
      [t1, t2, t3] := by
  have henc : c.encode.length = 116 := length_BlockContent_encode c hwf
  have hPF : ([p1, p2, p3] : List (List Nat)).flatten.length =
      p1.length + p2.length + p3.length := by simp; omega
  have hTF : ([t1, t2, t3] : List (List Nat)).flatten.length =
      t1.length + t2.length + t3.length := by simp; omega
  have hshape : Block.new c [p1, p2, p3] [t1, t2, t3] (gen_keypair seed).2 =
      signMessage ([0, 0, 0, 6] ++ toLE 4 0 ++ c.encode ++ (toLE 4 140 ++ toLE 4 24) ++
        (toLE 4 (164 + ([p1, p2, p3] : List (List Nat)).flatten.length) ++ toLE 4 24) ++
        innerTable 164 [p1, p2, p3] ++ ([p1, p2, p3] : List (List Nat)).flatten ++
        innerTable (164 + ([p1, p2, p3] : List (List Nat)).flatten.length + 24)
          [t1, t2, t3] ++ ([t1, t2, t3] : List (List Nat)).flatten)
        (gen_keypair seed).2 := by
    unfold Block.new mkMessage
    beta_reduce
    rw [block_body_shape c p1 p2 p3 t1 t2 t3 henc]
  have hlenraw : (([0, 0, 0, 6] : List Nat) ++ toLE 4 0 ++ c.encode ++
      (toLE 4 140 ++ toLE 4 24) ++
      (toLE 4 (164 + ([p1, p2, p3] : List (List Nat)).flatten.length) ++ toLE 4 24) ++
      innerTable 164 [p1, p2, p3] ++ ([p1, p2, p3] : List (List Nat)).flatten ++
      innerTable (164 + ([p1, p2, p3] : List (List Nat)).flatten.length + 24)
        [t1, t2, t3] ++ ([t1, t2, t3] : List (List Nat)).flatten).length =
      188 + (([p1, p2, p3] : List (List Nat)).flatten.length +
        ([t1, t2, t3] : List (List Nat)).flatten.length) := by
    simp [length_toLE, henc, length_innerTable]
    omega
  have hmsg : Block.new c [p1, p2, p3] [t1, t2, t3] (gen_keypair seed).2 =
      ([0, 0, 0, 6] ++
        toLE 4 (188 + (([p1, p2, p3] : List (List Nat)).flatten.length +
          ([t1, t2, t3] : List (List Nat)).flatten.length) + signatureSize) ++
        c.encode ++ toLE 4 140 ++ toLE 4 24 ++
        toLE 4 (164 + ([p1, p2, p3] : List (List Nat)).flatten.length) ++ toLE 4 24 ++
        innerTable 164 [p1, p2, p3] ++ ([p1, p2, p3] : List (List Nat)).flatten ++
        innerTable (164 + ([p1, p2, p3] : List (List Nat)).flatten.length + 24)
          [t1, t2, t3] ++ ([t1, t2, t3] : List (List Nat)).flatten) ++
      signBytes ([0, 0, 0, 6] ++
        toLE 4 (188 + (([p1, p2, p3] : List (List Nat)).flatten.length +
          ([t1, t2, t3] : List (List Nat)).flatten.length) + signatureSize) ++
        c.encode ++ toLE 4 140 ++ toLE 4 24 ++
        toLE 4 (164 + ([p1, p2, p3] : List (List Nat)).flatten.length) ++ toLE 4 24 ++
        innerTable 164 [p1, p2, p3] ++ ([p1, p2, p3] : List (List Nat)).flatten ++
        innerTable (164 + ([p1, p2, p3] : List (List Nat)).flatten.length + 24)
          [t1, t2, t3] ++ ([t1, t2, t3] : List (List Nat)).flatten)
        (gen_keypair seed).2 := by
    rw [hshape]
    unfold signMessage
    rw [hlenraw]
    have hgB : ([0, 0, 0, 6] : List Nat) ++ toLE 4 0 ++ c.encode ++
        (toLE 4 140 ++ toLE 4 24) ++
        (toLE 4 (164 + ([p1, p2, p3] : List (List Nat)).flatten.length) ++ toLE 4 24) ++
        innerTable 164 [p1, p2, p3] ++ ([p1, p2, p3] : List (List Nat)).flatten ++
        innerTable (164 + ([p1, p2, p3] : List (List Nat)).flatten.length + 24)
          [t1, t2, t3] ++ ([t1, t2, t3] : List (List Nat)).flatten =
        ([0, 0, 0, 6] : List Nat) ++ (toLE 4 0 ++ (c.encode ++ (toLE 4 140 ++
        (toLE 4 24 ++ (toLE 4 (164 + ([p1, p2, p3] : List (List Nat)).flatten.length) ++
        (toLE 4 24 ++ (innerTable 164 [p1, p2, p3] ++
        (([p1, p2, p3] : List (List Nat)).flatten ++
        (innerTable (164 + ([p1, p2, p3] : List (List Nat)).flatten.length + 24)
          [t1, t2, t3] ++ ([t1, t2, t3] : List (List Nat)).flatten))))))))) := by
      simp [List.append_assoc]
    rw [hgB]
    rw [setRange_at_append (by simp) (by simp [length_toLE])]
    rw [length_toLE]
    rw [List.drop_left' (length_toLE 4 0)]
    simp [List.append_assoc]
  obtain ⟨lf, hlf⟩ : ∃ lf, toLE 4 (188 + (([p1, p2, p3] : List (List Nat)).flatten.length +
      ([t1, t2, t3] : List (List Nat)).flatten.length) + signatureSize) = lf := ⟨_, rfl⟩
  have hlflen : lf.length = 4 := by rw [← hlf]; exact length_toLE _ _
  rw [hlf] at hmsg
  obtain ⟨sg, hsg⟩ : ∃ sg, signBytes ([0, 0, 0, 6] ++ lf ++ c.encode ++ toLE 4 140 ++
      toLE 4 24 ++ toLE 4 (164 + ([p1, p2, p3] : List (List Nat)).flatten.length) ++
      toLE 4 24 ++ innerTable 164 [p1, p2, p3] ++
      ([p1, p2, p3] : List (List Nat)).flatten ++
      innerTable (164 + ([p1, p2, p3] : List (List Nat)).flatten.length + 24)
        [t1, t2, t3] ++ ([t1, t2, t3] : List (List Nat)).flatten)
      (gen_keypair seed).2 = sg := ⟨_, rfl⟩
  rw [hsg] at hmsg
  have hg8 : ([0, 0, 0, 6] ++ lf ++ c.encode ++ toLE 4 140 ++ toLE 4 24 ++
      toLE 4 (164 + ([p1, p2, p3] : List (List Nat)).flatten.length) ++ toLE 4 24 ++
      innerTable 164 [p1, p2, p3] ++ ([p1, p2, p3] : List (List Nat)).flatten ++
      innerTable (164 + ([p1, p2, p3] : List (List Nat)).flatten.length + 24)
        [t1, t2, t3] ++ ([t1, t2, t3] : List (List Nat)).flatten) ++ sg =
      ([0, 0, 0, 6] ++ lf) ++ (c.encode ++ (toLE 4 140 ++ (toLE 4 24 ++
      (toLE 4 (164 + ([p1, p2, p3] : List (List Nat)).flatten.length) ++ (toLE 4 24 ++
      (innerTable 164 [p1, p2, p3] ++ (([p1, p2, p3] : List (List Nat)).flatten ++
      (innerTable (164 + ([p1, p2, p3] : List (List Nat)).flatten.length + 24)
        [t1, t2, t3] ++ (([t1, t2, t3] : List (List Nat)).flatten ++ sg))))))))) := by
    simp [List.append_assoc]
  have hg124 : ([0, 0, 0, 6] ++ lf ++ c.encode ++ toLE 4 140 ++ toLE 4 24 ++
      toLE 4 (164 + ([p1, p2, p3] : List (List Nat)).flatten.length) ++ toLE 4 24 ++
      innerTable 164 [p1, p2, p3] ++ ([p1, p2, p3] : List (List Nat)).flatten ++
      innerTable (164 + ([p1, p2, p3] : List (List Nat)).flatten.length + 24)
        [t1, t2, t3] ++ ([t1, t2, t3] : List (List Nat)).flatten) ++ sg =
      ([0, 0, 0, 6] ++ lf ++ c.encode) ++ (toLE 4 140 ++ (toLE 4 24 ++
      (toLE 4 (164 + ([p1, p2, p3] : List (List Nat)).flatten.length) ++ (toLE 4 24 ++
      (innerTable 164 [p1, p2, p3] ++ (([p1, p2, p3] : List (List Nat)).flatten ++
      (innerTable (164 + ([p1, p2, p3] : List (List Nat)).flatten.length + 24)
        [t1, t2, t3] ++ (([t1, t2, t3] : List (List Nat)).flatten ++ sg)))))))) := by
    simp [List.append_assoc]
  have hg128 : ([0, 0, 0, 6] ++ lf ++ c.encode ++ toLE 4 140 ++ toLE 4 24 ++
      toLE 4 (164 + ([p1, p2, p3] : List (List Nat)).flatten.length) ++ toLE 4 24 ++
      innerTable 164 [p1, p2, p3] ++ ([p1, p2, p3] : List (List Nat)).flatten ++
      innerTable (164 + ([p1, p2, p3] : List (List Nat)).flatten.length + 24)
        [t1, t2, t3] ++ ([t1, t2, t3] : List (List Nat)).flatten) ++ sg =
      ([0, 0, 0, 6] ++ lf ++ c.encode ++ toLE 4 140) ++ (toLE 4 24 ++
      (toLE 4 (164 + ([p1, p2, p3] : List (List Nat)).flatten.length) ++ (toLE 4 24 ++
      (innerTable 164 [p1, p2, p3] ++ (([p1, p2, p3] : List (List Nat)).flatten ++
      (innerTable (164 + ([p1, p2, p3] : List (List Nat)).flatten.length + 24)
        [t1, t2, t3] ++ (([t1, t2, t3] : List (List Nat)).flatten ++ sg))))))) := by
    simp [List.append_assoc]
  have hg132 : ([0, 0, 0, 6] ++ lf ++ c.encode ++ toLE 4 140 ++ toLE 4 24 ++
      toLE 4 (164 + ([p1, p2, p3] : List (List Nat)).flatten.length) ++ toLE 4 24 ++
      innerTable 164 [p1, p2, p3] ++ ([p1, p2, p3] : List (List Nat)).flatten ++
      innerTable (164 + ([p1, p2, p3] : List (List Nat)).flatten.length + 24)
        [t1, t2, t3] ++ ([t1, t2, t3] : List (List Nat)).flatten) ++ sg =
      ([0, 0, 0, 6] ++ lf ++ c.encode ++ toLE 4 140 ++ toLE 4 24) ++
      (toLE 4 (164 + ([p1, p2, p3] : List (List Nat)).flatten.length) ++ (toLE 4 24 ++
      (innerTable 164 [p1, p2, p3] ++ (([p1, p2, p3] : List (List Nat)).flatten ++
      (innerTable (164 + ([p1, p2, p3] : List (List Nat)).flatten.length + 24)
        [t1, t2, t3] ++ (([t1, t2, t3] : List (List Nat)).flatten ++ sg)))))) := by
    simp [List.append_assoc]
  have hg136 : ([0, 0, 0, 6] ++ lf ++ c.encode ++ toLE 4 140 ++ toLE 4 24 ++
      toLE 4 (164 + ([p1, p2, p3] : List (List Nat)).flatten.length) ++ toLE 4 24 ++
      innerTable 164 [p1, p2, p3] ++ ([p1, p2, p3] : List (List Nat)).flatten ++
      innerTable (164 + ([p1, p2, p3] : List (List Nat)).flatten.length + 24)
        [t1, t2, t3] ++ ([t1, t2, t3] : List (List Nat)).flatten) ++ sg =
      ([0, 0, 0, 6] ++ lf ++ c.encode ++ toLE 4 140 ++ toLE 4 24 ++
      toLE 4 (164 + ([p1, p2, p3] : List (List Nat)).flatten.length)) ++ (toLE 4 24 ++
      (innerTable 164 [p1, p2, p3] ++ (([p1, p2, p3] : List (List Nat)).flatten ++
      (innerTable (164 + ([p1, p2, p3] : List (List Nat)).flatten.length + 24)
        [t1, t2, t3] ++ (([t1, t2, t3] : List (List Nat)).flatten ++ sg))))) := by
    simp [List.append_assoc]
  have hgPc : ([0, 0, 0, 6] ++ lf ++ c.encode ++ toLE 4 140 ++ toLE 4 24 ++
      toLE 4 (164 + ([p1, p2, p3] : List (List Nat)).flatten.length) ++ toLE 4 24 ++
      innerTable 164 [p1, p2, p3] ++ ([p1, p2, p3] : List (List Nat)).flatten ++
      innerTable (164 + ([p1, p2, p3] : List (List Nat)).flatten.length + 24)
        [t1, t2, t3] ++ ([t1, t2, t3] : List (List Nat)).flatten) ++ sg =
      ([0, 0, 0, 6] ++ lf ++ c.encode ++ toLE 4 140 ++ toLE 4 24 ++
      toLE 4 (164 + ([p1, p2, p3] : List (List Nat)).flatten.length) ++ toLE 4 24) ++
      innerTable 164 [p1, p2, p3] ++
      ([] ++ ([p1, p2, p3] : List (List Nat)).flatten ++
      (innerTable (164 + ([p1, p2, p3] : List (List Nat)).flatten.length + 24)
        [t1, t2, t3] ++ (([t1, t2, t3] : List (List Nat)).flatten ++ sg))) := by
    simp [List.append_assoc]
  have hgTx : ([0, 0, 0, 6] ++ lf ++ c.encode ++ toLE 4 140 ++ toLE 4 24 ++
      toLE 4 (164 + ([p1, p2, p3] : List (List Nat)).flatten.length) ++ toLE 4 24 ++
      innerTable 164 [p1, p2, p3] ++ ([p1, p2, p3] : List (List Nat)).flatten ++
      innerTable (164 + ([p1, p2, p3] : List (List Nat)).flatten.length + 24)
        [t1, t2, t3] ++ ([t1, t2, t3] : List (List Nat)).flatten) ++ sg =
      ([0, 0, 0, 6] ++ lf ++ c.encode ++ toLE 4 140 ++ toLE 4 24 ++
      toLE 4 (164 + ([p1, p2, p3] : List (List Nat)).flatten.length) ++ toLE 4 24 ++
      innerTable 164 [p1, p2, p3] ++ ([p1, p2, p3] : List (List Nat)).flatten) ++
      innerTable (164 + ([p1, p2, p3] : List (List Nat)).flatten.length + 24)
        [t1, t2, t3] ++
      ([] ++ ([t1, t2, t3] : List (List Nat)).flatten ++ sg) := by
    simp [List.append_assoc]
  have hpre124 : (([0, 0, 0, 6] : List Nat) ++ lf ++ c.encode).length = 124 := by
    simp [hlflen, henc]
  have hpre128 : (([0, 0, 0, 6] : List Nat) ++ lf ++ c.encode ++ toLE 4 140).length =
      128 := by
    simp [hlflen, henc, length_toLE]
  have hpre132 : (([0, 0, 0, 6] : List Nat) ++ lf ++ c.encode ++ toLE 4 140 ++
      toLE 4 24).length = 132 := by
    simp [hlflen, henc, length_toLE]
  have hpre136 : (([0, 0, 0, 6] : List Nat) ++ lf ++ c.encode ++ toLE 4 140 ++
      toLE 4 24 ++
      toLE 4 (164 + ([p1, p2, p3] : List (List Nat)).flatten.length)).length = 136 := by
    simp [hlflen, henc, length_toLE]
  have hpre140 : (([0, 0, 0, 6] : List Nat) ++ lf ++ c.encode ++ toLE 4 140 ++
      toLE 4 24 ++
      toLE 4 (164 + ([p1, p2, p3] : List (List Nat)).flatten.length) ++
      toLE 4 24).length = 140 := by
    simp [hlflen, henc, length_toLE]
  have hpreTx : (([0, 0, 0, 6] : List Nat) ++ lf ++ c.encode ++ toLE 4 140 ++
      toLE 4 24 ++
      toLE 4 (164 + ([p1, p2, p3] : List (List Nat)).flatten.length) ++ toLE 4 24 ++
      innerTable 164 [p1, p2, p3] ++
      ([p1, p2, p3] : List (List Nat)).flatten).length =
      164 + ([p1, p2, p3] : List (List Nat)).flatten.length := by
    simp [hlflen, henc, length_toLE, length_innerTable]
    omega
  refine ⟨?_, ?_, ?_⟩
  · show BlockContent.decode (slice _ 8 124) = c
    rw [hmsg, hg8]
    rw [slice_concat' _ _ _ (by simp [hlflen]) (by omega)]
    exact BlockContent_decode_encode c hwf
  · show readTable _ (segOffset _ 124) (segLength _ 124 / 8) = [p1, p2, p3]
    rw [hmsg]
    have ho : segOffset (([0, 0, 0, 6] ++ lf ++ c.encode ++ toLE 4 140 ++ toLE 4 24 ++
        toLE 4 (164 + ([p1, p2, p3] : List (List Nat)).flatten.length) ++ toLE 4 24 ++
        innerTable 164 [p1, p2, p3] ++ ([p1, p2, p3] : List (List Nat)).flatten ++
        innerTable (164 + ([p1, p2, p3] : List (List Nat)).flatten.length + 24)
          [t1, t2, t3] ++ ([t1, t2, t3] : List (List Nat)).flatten) ++ sg) 124 = 140 := by
      unfold segOffset readU32
      rw [hg124]
      exact fromLE_slice_concat _ _ hpre124.symm (by norm_num)
    have hl : segLength (([0, 0, 0, 6] ++ lf ++ c.encode ++ toLE 4 140 ++ toLE 4 24 ++
        toLE 4 (164 + ([p1, p2, p3] : List (List Nat)).flatten.length) ++ toLE 4 24 ++
        innerTable 164 [p1, p2, p3] ++ ([p1, p2, p3] : List (List Nat)).flatten ++
        innerTable (164 + ([p1, p2, p3] : List (List Nat)).flatten.length + 24)
          [t1, t2, t3] ++ ([t1, t2, t3] : List (List Nat)).flatten) ++ sg) 124 = 24 := by
      unfold segLength readU32
      rw [hg128]
      exact fromLE_slice_concat _ _ hpre128.symm (by norm_num)
    rw [ho, hl]
    rw [show (24 : Nat) / 8 = ([p1, p2, p3] : List (List Nat)).length from rfl]
    rw [hgPc]
    have happ := readTable_concat [p1, p2, p3]
      ([0, 0, 0, 6] ++ lf ++ c.encode ++ toLE 4 140 ++ toLE 4 24 ++
        toLE 4 (164 + ([p1, p2, p3] : List (List Nat)).flatten.length) ++ toLE 4 24) []
      (innerTable (164 + ([p1, p2, p3] : List (List Nat)).flatten.length + 24)
        [t1, t2, t3] ++ (([t1, t2, t3] : List (List Nat)).flatten ++ sg)) 164
      (by rw [hpre140]; simp)
      (by rw [hpre140]; simp [hPF]; omega)
    rw [hpre140] at happ
    rw [show ([] : List Nat) ++ ([p1, p2, p3] : List (List Nat)).flatten ++
      (innerTable (164 + ([p1, p2, p3] : List (List Nat)).flatten.length + 24)
        [t1, t2, t3] ++ (([t1, t2, t3] : List (List Nat)).flatten ++ sg)) =
      [] ++ ([p1, p2, p3] : List (List Nat)).flatten ++
      (innerTable (164 + ([p1, p2, p3] : List (List Nat)).flatten.length + 24)
        [t1, t2, t3] ++ (([t1, t2, t3] : List (List Nat)).flatten ++ sg)) from rfl]
    exact happ
  · show readTable _ (segOffset _ 132) (segLength _ 132 / 8) = [t1, t2, t3]
    rw [hmsg]
    have ho : segOffset (([0, 0, 0, 6] ++ lf ++ c.encode ++ toLE 4 140 ++ toLE 4 24 ++
        toLE 4 (164 + ([p1, p2, p3] : List (List Nat)).flatten.length) ++ toLE 4 24 ++
        innerTable 164 [p1, p2, p3] ++ ([p1, p2, p3] : List (List Nat)).flatten ++
        innerTable (164 + ([p1, p2, p3] : List (List Nat)).flatten.length + 24)
          [t1, t2, t3] ++ ([t1, t2, t3] : List (List Nat)).flatten) ++ sg) 132 =
        164 + ([p1, p2, p3] : List (List Nat)).flatten.length := by
      unfold segOffset readU32
      rw [hg132]
      exact fromLE_slice_concat _ _ hpre132.symm (by rw [hPF]; omega)
    have hl : segLength (([0, 0, 0, 6] ++ lf ++ c.encode ++ toLE 4 140 ++ toLE 4 24 ++
        toLE 4 (164 + ([p1, p2, p3] : List (List Nat)).flatten.length) ++ toLE 4 24 ++
        innerTable 164 [p1, p2, p3] ++ ([p1, p2, p3] : List (List Nat)).flatten ++
        innerTable (164 + ([p1, p2, p3] : List (List Nat)).flatten.length + 24)
          [t1, t2, t3] ++ ([t1, t2, t3] : List (List Nat)).flatten) ++ sg) 132 = 24 := by
      unfold segLength readU32
      rw [hg136]
      exact fromLE_slice_concat _ _ hpre136.symm (by norm_num)
    rw [ho, hl]
    rw [show (24 : Nat) / 8 = ([t1, t2, t3] : List (List Nat)).length from rfl]
    rw [hgTx]
    have happ := readTable_concat [t1, t2, t3]
      ([0, 0, 0, 6] ++ lf ++ c.encode ++ toLE 4 140 ++ toLE 4 24 ++
        toLE 4 (164 + ([p1, p2, p3] : List (List Nat)).flatten.length) ++ toLE 4 24 ++
        innerTable 164 [p1, p2, p3] ++ ([p1, p2, p3] : List (List Nat)).flatten) [] sg
      (164 + ([p1, p2, p3] : List (List Nat)).flatten.length + 24)
      (by rw [hpreTx]; simp)
      (by rw [hpreTx]; simp [hPF, hTF]; omega)
    rw [hpreTx] at happ
    exact happ

/-- C6 witness: the Propose round-trip at a concrete timestamp, keypair and
concrete 32-byte hashes, shown through the validator accessor and signature
verification. -/
theorem propose_roundtrip_witness :
    Propose.validator (Propose.new 123123 123123123 321321312 5 6
        (List.replicate 32 1) [List.replicate 32 2, List.replicate 32 3,
          List.replicate 32 3] (gen_keypair 0).2) = 123123 ∧
    Propose.transactions (Propose.new 123123 123123123 321321312 5 6
        (List.replicate 32 1) [List.replicate 32 2, List.replicate 32 3,
          List.replicate 32 3] (gen_keypair 0).2) =
      [List.replicate 32 2, List.replicate 32 3, List.replicate 32 3] ∧
    Message.verify (Propose.new 123123 123123123 321321312 5 6
        (List.replicate 32 1) [List.replicate 32 2, List.replicate 32 3,
          List.replicate 32 3] (gen_keypair 0).2) (gen_keypair 0).1 = true := by
  have h := propose_roundtrip 5 6 0 (List.replicate 32 1) (List.replicate 32 2)
    (List.replicate 32 3) (by decide) (by decide) (by decide) (by decide) (by decide)
  exact ⟨h.1, h.2.2.2.2.2.1, h.2.2.2.2.2.2.2⟩

/-- C7 witness: the Block round-trip at one concrete content and concrete
element buffers. -/
theorem block_roundtrip_witness :
    Block.block (Block.new ⟨1, 2, 3, List.replicate 32 4, List.replicate 32 5,
        List.replicate 32 6⟩ [[1], [2, 3], []] [[4], [5], [6, 7]]
        (gen_keypair 0).2) =
      ⟨1, 2, 3, List.replicate 32 4, List.replicate 32 5, List.replicate 32 6⟩ ∧
    Block.precommits (Block.new ⟨1, 2, 3, List.replicate 32 4, List.replicate 32 5,
        List.replicate 32 6⟩ [[1], [2, 3], []] [[4], [5], [6, 7]]
        (gen_keypair 0).2) = [[1], [2, 3], []] ∧
    Block.transactions (Block.new ⟨1, 2, 3, List.replicate 32 4, List.replicate 32 5,
        List.replicate 32 6⟩ [[1], [2, 3], []] [[4], [5], [6, 7]]
        (gen_keypair 0).2) = [[4], [5], [6, 7]] :=
  block_roundtrip ⟨1, 2, 3, List.replicate 32 4, List.replicate 32 5,
      List.replicate 32 6⟩ [1] [2, 3] [] [4] [5] [6, 7] 0
    ⟨by decide, by decide, by decide, by decide, by decide, by decide⟩ (by decide)

/-- C1 counterexample: polling onlyTimeoutEnds returns end-of-stream although
the network and api sources have never signalled completion (their done flags
are false and their scripts contain no completion at all), refuting the claim
that the combined stream ends only once all three sources have completed. -/
theorem aggregator_single_source_ends_stream :
    (EventsAggregator.poll onlyTimeoutEnds).1 = Poll3.ready none ∧
      onlyTimeoutEnds.network.done = false ∧
      onlyTimeoutEnds.api.done = false ∧
      Poll3.ready none ∉ onlyTimeoutEnds.network.stream ∧
      Poll3.ready none ∉ onlyTimeoutEnds.api.stream := by
  decide

/-- C1 (amended): the aggregated stream ends as soon as any one source has
signalled completion: a poll returns end-of-stream exactly when none of the
three sources yields an item or an error in that cycle and at least one of
them returns completion. -/
theorem aggregator_completion_iff_any_done (s : EventsAggregator T N A ε) :
    (EventsAggregator.poll s).1 = Poll3.ready none ↔
      (Fuse.poll s.timeout).1.quiet ∧ (Fuse.poll s.network).1.quiet ∧
        (Fuse.poll s.api).1.quiet ∧
        ((Fuse.poll s.timeout).1.isDone = true ∨
          (Fuse.poll s.network).1.isDone = true ∨
          (Fuse.poll s.api).1.isDone = true) := by
  rcases ht : Fuse.poll s.timeout with ⟨rt, ft⟩
  rcases hn : Fuse.poll s.network with ⟨rn, fn⟩
  rcases ha : Fuse.poll s.api with ⟨ra, fa⟩
  simp only [EventsAggregator.poll, ht, hn, ha]
  rcases rt with _ | e | x
  · rcases rn with _ | e | y
    · rcases ra with _ | e | z
      · simp [Poll3.quiet, Poll3.isDone]
      · simp [Poll3.quiet, Poll3.isDone]
      · rcases z with _ | z <;> simp [Poll3.quiet, Poll3.isDone]
    · simp [Poll3.quiet, Poll3.isDone]
    · rcases y with _ | y
      · rcases ra with _ | e | z
        · simp [Poll3.quiet, Poll3.isDone]
        · simp [Poll3.quiet, Poll3.isDone]
        · rcases z with _ | z <;> simp [Poll3.quiet, Poll3.isDone]
      · simp [Poll3.quiet, Poll3.isDone]
  · simp [Poll3.quiet, Poll3.isDone]
  · rcases x with _ | x
    · rcases rn with _ | e | y
      · rcases ra with _ | e | z
        · simp [Poll3.quiet, Poll3.isDone]
        · simp [Poll3.quiet, Poll3.isDone]
        · rcases z with _ | z <;> simp [Poll3.quiet, Poll3.isDone]
      · simp [Poll3.quiet, Poll3.isDone]
      · rcases y with _ | y
        · rcases ra with _ | e | z
          · simp [Poll3.quiet, Poll3.isDone]
          · simp [Poll3.quiet, Poll3.isDone]
          · rcases z with _ | z <;> simp [Poll3.quiet, Poll3.isDone]
        · simp [Poll3.quiet, Poll3.isDone]
    · simp [Poll3.quiet, Poll3.isDone]

/-- C2: fixed source priority timeout then network then api. A ready timeout
item is always emitted as Event.timeout; with the timeout source quiet, a
ready network item is emitted as Event.network; an emitted Event.api implies
the timeout and network sources were quiet and the api source had the item;
and when all three sources are not ready the aggregator poll is not ready. -/
theorem aggregator_priority (s : EventsAggregator T N A ε) :
    (∀ item, (Fuse.poll s.timeout).1 = Poll3.ready (some item) →
      (EventsAggregator.poll s).1 = Poll3.ready (some (Event.timeout item))) ∧
    (∀ item, (Fuse.poll s.timeout).1.quiet →
      (Fuse.poll s.network).1 = Poll3.ready (some item) →
      (EventsAggregator.poll s).1 = Poll3.ready (some (Event.network item))) ∧
    (∀ item, (EventsAggregator.poll s).1 = Poll3.ready (some (Event.api item)) →
      (Fuse.poll s.timeout).1.quiet ∧ (Fuse.poll s.network).1.quiet ∧
        (Fuse.poll s.api).1 = Poll3.ready (some item)) ∧
    ((Fuse.poll s.timeout).1 = Poll3.notReady →
      (Fuse.poll s.network).1 = Poll3.notReady →
      (Fuse.poll s.api).1 = Poll3.notReady →
      (EventsAggregator.poll s).1 = Poll3.notReady) := by
  rcases ht : Fuse.poll s.timeout with ⟨rt, ft⟩
  rcases hn : Fuse.poll s.network with ⟨rn, fn⟩
  rcases ha : Fuse.poll s.api with ⟨ra, fa⟩
  refine ⟨?_, ?_, ?_, ?_⟩
  · intro item hitem
    simp only at hitem
    subst hitem
    simp [EventsAggregator.poll, ht]
  · intro item hq hitem
    simp only at hq hitem
    subst hitem
    rcases hq with hq | hq <;> subst hq <;>
      simp [EventsAggregator.poll, ht, hn, Poll3.isDone]
  · intro item hapi
    simp only [EventsAggregator.poll, ht, hn, ha] at hapi
    rcases rt with _ | e | x
    · rcases rn with _ | e | y
      · rcases ra with _ | e | z
        · simp [Poll3.isDone] at hapi
        · simp [Poll3.isDone] at hapi
        · rcases z with _ | z
          · simp [Poll3.isDone] at hapi
          · simp [Poll3.isDone] at hapi
            subst hapi
            simp [Poll3.quiet]
      · simp [Poll3.isDone] at hapi
      · rcases y with _ | y
        · rcases ra with _ | e | z
          · simp [Poll3.isDone] at hapi
          · simp [Poll3.isDone] at hapi
          · rcases z with _ | z
            · simp [Poll3.isDone] at hapi
            · simp [Poll3.isDone] at hapi
              subst hapi
              simp [Poll3.quiet]
        · simp [Poll3.isDone] at hapi
    · simp [Poll3.isDone] at hapi
    · rcases x with _ | x
      · rcases rn with _ | e | y
        · rcases ra with _ | e | z
          · simp [Poll3.isDone] at hapi
          · simp [Poll3.isDone] at hapi
          · rcases z with _ | z
            · simp [Poll3.isDone] at hapi
            · simp [Poll3.isDone] at hapi
              subst hapi
              simp [Poll3.quiet]
        · simp [Poll3.isDone] at hapi
        · rcases y with _ | y
          · rcases ra with _ | e | z
            · simp [Poll3.isDone] at hapi
            · simp [Poll3.isDone] at hapi
            · rcases z with _ | z
              · simp [Poll3.isDone] at hapi
              · simp [Poll3.isDone] at hapi
                subst hapi
                simp [Poll3.quiet]
          · simp [Poll3.isDone] at hapi
      · simp [Poll3.isDone] at hapi
  · intro h1 h2 h3
    simp only at h1 h2 h3
    subst h1; subst h2; subst h3
    simp [EventsAggregator.poll, ht, hn, ha, Poll3.isDone]

/-- C2 witness: the four priority facts applied at concrete aggregator
states over natural-number payloads. -/
theorem aggregator_priority_witness :
    (EventsAggregator.poll
      ({ timeout := ⟨[Poll3.ready (some 5)], false⟩
         network := ⟨[Poll3.ready (some 7)], false⟩
         api := ⟨[Poll3.ready (some 9)], false⟩ } :
        EventsAggregator Nat Nat Nat Nat)).1 =
        Poll3.ready (some (Event.timeout 5)) ∧
    (EventsAggregator.poll
      ({ timeout := ⟨[Poll3.notReady], false⟩
         network := ⟨[Poll3.ready (some 7)], false⟩
         api := ⟨[Poll3.ready (some 9)], false⟩ } :
        EventsAggregator Nat Nat Nat Nat)).1 =
        Poll3.ready (some (Event.network 7)) ∧
    ((Fuse.poll (⟨[Poll3.notReady], false⟩ : Fuse Nat Nat)).1.quiet ∧
      (Fuse.poll (⟨[Poll3.notReady], false⟩ : Fuse Nat Nat)).1.quiet ∧
      (Fuse.poll (⟨[Poll3.ready (some 9)], false⟩ : Fuse Nat Nat)).1 =
        Poll3.ready (some 9)) ∧
    (EventsAggregator.poll
      ({ timeout := ⟨[Poll3.notReady], false⟩
         network := ⟨[Poll3.notReady], false⟩
         api := ⟨[Poll3.notReady], false⟩ } :
        EventsAggregator Nat Nat Nat Nat)).1 = Poll3.notReady := by
  refine ⟨?_, ?_, ?_, ?_⟩
  · exact (aggregator_priority _).1 5 (by decide)
  · exact (aggregator_priority _).2.1 7 (by decide) (by decide)
  · exact (aggregator_priority
      ({ timeout := ⟨[Poll3.notReady], false⟩
         network := ⟨[Poll3.notReady], false⟩
         api := ⟨[Poll3.ready (some 9)], false⟩ } :
        EventsAggregator Nat Nat Nat Nat)).2.2.1 9 (by decide)
  · exact (aggregator_priority _).2.2.2 (by decide) (by decide) (by decide)

/-- C10: every source is wrapped in Fuse by the constructor with the done
flag initially false; a fused source whose done flag is set is returned as
completed without polling (or consuming) the underlying stream; a fused
source that returns completion has its done flag set afterwards; an
aggregator poll leaves any already-done source untouched; and once all three
sources are done every further poll returns end-of-stream and leaves the
whole state unchanged, so repeated polling is safe. -/
theorem aggregator_fuse_protection :
    (∀ (st : List (Poll3 T ε)) (sn : List (Poll3 N ε)) (sa : List (Poll3 A ε)),
      EventsAggregator.new st sn sa =
        { timeout := Fuse.fuse st, network := Fuse.fuse sn, api := Fuse.fuse sa } ∧
      (Fuse.fuse st).done = false) ∧
    (∀ f : Fuse α ε, f.done = true → Fuse.poll f = (Poll3.ready none, f)) ∧
    (∀ f : Fuse α ε, (Fuse.poll f).1 = Poll3.ready none → (Fuse.poll f).2.done = true) ∧
    (∀ s : EventsAggregator T N A ε,
      (s.timeout.done = true → (EventsAggregator.poll s).2.timeout = s.timeout) ∧
      (s.network.done = true → (EventsAggregator.poll s).2.network = s.network) ∧
      (s.api.done = true → (EventsAggregator.poll s).2.api = s.api)) ∧
    (∀ s : EventsAggregator T N A ε,
      s.timeout.done = true → s.network.done = true → s.api.done = true →
      EventsAggregator.poll s = (Poll3.ready none, s)) := by
  refine ⟨fun st sn sa => ⟨rfl, rfl⟩, ?_, ?_, ?_, ?_⟩
  · intro f h
    simp [Fuse.poll, h]
  · intro f h
    by_cases hd : f.done
    · simp [Fuse.poll, hd]
    · simp only [Fuse.poll, hd, if_false, Bool.false_eq_true] at h ⊢
      rcases hs : f.stream with _ | ⟨r, rest⟩
      · simp [hs] at h
      · rcases r with _ | e | x
        · simp [hs] at h
        · simp [hs] at h
        · rcases x with _ | x
          · simp [hs]
          · simp [hs] at h
  · intro s
    refine ⟨?_, ?_, ?_⟩
    · intro h
      have hp : Fuse.poll s.timeout = (Poll3.ready none, s.timeout) := by
        simp [Fuse.poll, h]
      rcases hn : Fuse.poll s.network with ⟨rn, fn⟩
      rcases ha : Fuse.poll s.api with ⟨ra, fa⟩
      rcases rn with _ | e | y
      · rcases ra with _ | e | z
        · simp [EventsAggregator.poll, hp, hn, ha]
        · simp [EventsAggregator.poll, hp, hn, ha]
        · rcases z with _ | z <;> simp [EventsAggregator.poll, hp, hn, ha, Poll3.isDone]
      · simp [EventsAggregator.poll, hp, hn, ha]
      · rcases y with _ | y
        · rcases ra with _ | e | z
          · simp [EventsAggregator.poll, hp, hn, ha]
          · simp [EventsAggregator.poll, hp, hn, ha]
          · rcases z with _ | z <;> simp [EventsAggregator.poll, hp, hn, ha, Poll3.isDone]
        · simp [EventsAggregator.poll, hp, hn, ha]
    · intro h
      have hp : Fuse.poll s.network = (Poll3.ready none, s.network) := by
        simp [Fuse.poll, h]
      rcases ht : Fuse.poll s.timeout with ⟨rt, ft⟩
      rcases ha : Fuse.poll s.api with ⟨ra, fa⟩
      rcases rt with _ | e | x
      · rcases ra with _ | e | z
        · simp [EventsAggregator.poll, hp, ht, ha]
        · simp [EventsAggregator.poll, hp, ht, ha]
        · rcases z with _ | z <;> simp [EventsAggregator.poll, hp, ht, ha, Poll3.isDone]
      · simp [EventsAggregator.poll, hp, ht, ha]
      · rcases x with _ | x
        · rcases ra with _ | e | z
          · simp [EventsAggregator.poll, hp, ht, ha]
          · simp [EventsAggregator.poll, hp, ht, ha]
          · rcases z with _ | z <;> simp [EventsAggregator.poll, hp, ht, ha, Poll3.isDone]
        · simp [EventsAggregator.poll, hp, ht, ha]
    · intro h
      have hp : Fuse.poll s.api = (Poll3.ready none, s.api) := by
        simp [Fuse.poll, h]
      rcases ht : Fuse.poll s.timeout with ⟨rt, ft⟩
      rcases hn : Fuse.poll s.network with ⟨rn, fn⟩
      rcases rt with _ | e | x
      · rcases rn with _ | e | y
        · simp [EventsAggregator.poll, hp, ht, hn, Poll3.isDone]
        · simp [EventsAggregator.poll, hp, ht, hn]
        · rcases y with _ | y <;> simp [EventsAggregator.poll, hp, ht, hn, Poll3.isDone]
      · simp [EventsAggregator.poll, hp, ht, hn]
      · rcases x with _ | x
        · rcases rn with _ | e | y
          · simp [EventsAggregator.poll, hp, ht, hn, Poll3.isDone]
          · simp [EventsAggregator.poll, hp, ht, hn]
          · rcases y with _ | y <;> simp [EventsAggregator.poll, hp, ht, hn, Poll3.isDone]
        · simp [EventsAggregator.poll, hp, ht, hn]
  · intro s h1 h2 h3
    have p1 : Fuse.poll s.timeout = (Poll3.ready none, s.timeout) := by
      simp [Fuse.poll, h1]
    have p2 : Fuse.poll s.network = (Poll3.ready none, s.network) := by
      simp [Fuse.poll, h2]
    have p3 : Fuse.poll s.api = (Poll3.ready none, s.api) := by
      simp [Fuse.poll, h3]
    simp [EventsAggregator.poll, p1, p2, p3, Poll3.isDone]

/-- C10 witness: the five fuse-protection facts applied to concrete fused
streams and aggregator states over natural-number payloads. -/
theorem aggregator_fuse_protection_witness :
    (EventsAggregator.new (T := Nat) (N := Nat) (A := Nat) (ε := Nat)
        [Poll3.notReady] [] [Poll3.ready (some 4)] =
      { timeout := Fuse.fuse [Poll3.notReady], network := Fuse.fuse []
        api := Fuse.fuse [Poll3.ready (some 4)] }) ∧
    (Fuse.poll (⟨[Poll3.ready (some 3)], true⟩ : Fuse Nat Nat) =
      (Poll3.ready none, ⟨[Poll3.ready (some 3)], true⟩)) ∧
    ((Fuse.poll (⟨[Poll3.ready none], false⟩ : Fuse Nat Nat)).2.done = true) ∧
    ((EventsAggregator.poll
      ({ timeout := ⟨[Poll3.ready (some 3)], true⟩
         network := ⟨[Poll3.notReady], false⟩
         api := ⟨[Poll3.notReady], false⟩ } :
        EventsAggregator Nat Nat Nat Nat)).2.timeout =
      (⟨[Poll3.ready (some 3)], true⟩ : Fuse Nat Nat)) ∧
    (EventsAggregator.poll
      ({ timeout := ⟨[], true⟩, network := ⟨[], true⟩, api := ⟨[], true⟩ } :
        EventsAggregator Nat Nat Nat Nat) =
      (Poll3.ready none,
        { timeout := ⟨[], true⟩, network := ⟨[], true⟩, api := ⟨[], true⟩ })) := by
  refine ⟨?_, ?_, ?_, ?_, ?_⟩
  · exact ((aggregator_fuse_protection (α := Nat) (ε := Nat) (T := Nat) (N := Nat)
      (A := Nat)).1 [Poll3.notReady] [] [Poll3.ready (some 4)]).1
  · exact (aggregator_fuse_protection (α := Nat) (ε := Nat) (T := Nat) (N := Nat)
      (A := Nat)).2.1 _ (by decide)
  · exact (aggregator_fuse_protection (α := Nat) (ε := Nat) (T := Nat) (N := Nat)
      (A := Nat)).2.2.1 _ (by decide)
  · exact ((aggregator_fuse_protection (α := Nat) (ε := Nat) (T := Nat) (N := Nat)
      (A := Nat)).2.2.2.1 _).1 (by decide)
  · exact (aggregator_fuse_protection (α := Nat) (ε := Nat) (T := Nat) (N := Nat)
      (A := Nat)).2.2.2.2 _ (by decide) (by decide) (by decide)

/-- C8: both NodeSender operations are fire-and-forget. With the receiver
alive, send_to appends exactly the SendMessage request for the given address
and message to the network queue and changes nothing else, and add_timeout
appends exactly the (time, timeout) pair to the timeout queue; with the
receiver dropped, the channels are left unchanged and the failure is
appended to the log. In every case the operation returns a plain state to
the caller, so no enqueue failure is ever propagated. -/
theorem nodesender_fire_and_forget (ctx : NodeCtx) (address : SockAddr)
    (message : RawMessage) (timeout : NodeTimeout) (time : SysTime) :
    (ctx.chans.network.receiverAlive = true →
      NodeSender.send_to ctx address message =
        { ctx with chans := { ctx.chans with network :=
            { ctx.chans.network with queue :=
                ctx.chans.network.queue ++
                  [NetworkRequest.sendMessage address message] } } }) ∧
    (ctx.chans.network.receiverAlive = false →
      NodeSender.send_to ctx address message =
        { ctx with log := ctx.log ++
            [LogEntry.droppedNetwork (NetworkRequest.sendMessage address message)] }) ∧
    (ctx.chans.timeout.receiverAlive = true →
      NodeSender.add_timeout ctx timeout time =
        { ctx with chans := { ctx.chans with timeout :=
            { ctx.chans.timeout with queue :=
                ctx.chans.timeout.queue ++
                  [{ time := time, timeout := timeout }] } } }) ∧
    (ctx.chans.timeout.receiverAlive = false →
      NodeSender.add_timeout ctx timeout time =
        { ctx with log := ctx.log ++
            [LogEntry.droppedTimeout { time := time, timeout := timeout }] }) := by
  refine ⟨?_, ?_, ?_, ?_⟩ <;> intro h <;>
    simp [NodeSender.send_to, NodeSender.add_timeout, chanSend, h]

/-- C8 witness: the four fire-and-forget facts applied at a concrete state
with live receivers and at one with dropped receivers. -/
theorem nodesender_fire_and_forget_witness :
    (NodeSender.send_to ⟨NodeChannel.new 4, []⟩ 9 [1, 2] =
      { chans := { NodeChannel.new 4 with network :=
          { capacity := 4, queue := [NetworkRequest.sendMessage 9 [1, 2]]
            receiverAlive := true } }
        log := [] }) ∧
    (NodeSender.send_to
        ⟨{ NodeChannel.new 4 with network := ⟨4, [], false⟩ }, []⟩ 9 [1, 2] =
      { chans := { NodeChannel.new 4 with network := ⟨4, [], false⟩ }
        log := [LogEntry.droppedNetwork (NetworkRequest.sendMessage 9 [1, 2])] }) ∧
    (NodeSender.add_timeout ⟨NodeChannel.new 4, []⟩ 7 11 =
      { chans := { NodeChannel.new 4 with timeout :=
          { capacity := 4, queue := [{ time := 11, timeout := 7 }]
            receiverAlive := true } }
        log := [] }) ∧
    (NodeSender.add_timeout
        ⟨{ NodeChannel.new 4 with timeout := ⟨4, [], false⟩ }, []⟩ 7 11 =
      { chans := { NodeChannel.new 4 with timeout := ⟨4, [], false⟩ }
        log := [LogEntry.droppedTimeout { time := 11, timeout := 7 }] }) := by
  refine ⟨?_, ?_, ?_, ?_⟩
  · exact (nodesender_fire_and_forget ⟨NodeChannel.new 4, []⟩ 9 [1, 2] 0 0).1 (by decide)
  · exact (nodesender_fire_and_forget
      ⟨{ NodeChannel.new 4 with network := ⟨4, [], false⟩ }, []⟩ 9 [1, 2] 0 0).2.1
      (by decide)
  · exact (nodesender_fire_and_forget ⟨NodeChannel.new 4, []⟩ 0 [] 7 11).2.2.1 (by decide)
  · exact (nodesender_fire_and_forget
      ⟨{ NodeChannel.new 4 with timeout := ⟨4, [], false⟩ }, []⟩ 0 [] 7 11).2.2.2
      (by decide)

/-- C9: NodeChannel::new(buffer) gives all three queues the identical
capacity buffer, and each sender handle feeds exactly its matching receiver
handle: a request sent through send_to is received on the network queue while
the timeout and external queues stay fresh, a pair sent through add_timeout
is received on the timeout queue while the other two stay fresh, and an
external message enqueued on the external channel is received there. -/
theorem nodechannel_new_pairing (buffer : Nat) (address : SockAddr)
    (message : RawMessage) (timeout : NodeTimeout) (time : SysTime)
    (m : ExternalMessage) :
    ((NodeChannel.new buffer).timeout.capacity = buffer ∧
      (NodeChannel.new buffer).network.capacity = buffer ∧
      (NodeChannel.new buffer).external.capacity = buffer) ∧
    (chanRecv (NodeSender.send_to ⟨NodeChannel.new buffer, []⟩ address message).chans.network =
        some (NetworkRequest.sendMessage address message,
          mpscChannel NetworkRequest buffer) ∧
      (NodeSender.send_to ⟨NodeChannel.new buffer, []⟩ address message).chans.timeout =
        mpscChannel TimeoutRequest buffer ∧
      (NodeSender.send_to ⟨NodeChannel.new buffer, []⟩ address message).chans.external =
        mpscChannel ExternalMessage buffer) ∧
    (chanRecv (NodeSender.add_timeout ⟨NodeChannel.new buffer, []⟩ timeout time).chans.timeout =
        some ({ time := time, timeout := timeout },
          mpscChannel TimeoutRequest buffer) ∧
      (NodeSender.add_timeout ⟨NodeChannel.new buffer, []⟩ timeout time).chans.network =
        mpscChannel NetworkRequest buffer ∧
      (NodeSender.add_timeout ⟨NodeChannel.new buffer, []⟩ timeout time).chans.external =
        mpscChannel ExternalMessage buffer) ∧
    (chanSend (NodeChannel.new buffer).external m =
        Except.ok { capacity := buffer, queue := [m], receiverAlive := true } ∧
      chanRecv { capacity := buffer, queue := [m], receiverAlive := true } =
        some (m, mpscChannel ExternalMessage buffer)) := by
  refine ⟨⟨rfl, rfl, rfl⟩, ⟨?_, ?_, ?_⟩, ⟨?_, ?_, ?_⟩, ⟨?_, ?_⟩⟩ <;>
    simp [NodeSender.send_to, NodeSender.add_timeout, NodeChannel.new, mpscChannel,
      chanSend, chanRecv]

end Exonum
